import Mathlib

/-!
Shallow embedding of the per-room HLS stream composition controller
(`src/server/hlsmanager.ts`) and proofs about its spec-level properties.

Numbers rendered into text (ports, payload types, ssrcs) are modelled by
`repNat`, the decimal rendering of a natural number, matching the JS
template-literal rendering of a number.
-/

namespace HlsModel

/-- The character for a single decimal digit `d < 10`. -/
def natDigitChar (d : Nat) : Char := Char.ofNat (48 + d)

/-- Big-endian decimal digit characters of `n` (JS number-to-string). -/
def digitChars (n : Nat) : List Char :=
  if n = 0 then ['0'] else ((Nat.digits 10 n).map natDigitChar).reverse

/-- Decimal rendering of a natural number, as a string. -/
def repNat (n : Nat) : String := String.mk (digitChars n)

/-- Decode one decimal digit character. -/
def charDigit? (ch : Char) : Option Nat :=
  if 48 ≤ ch.toNat ∧ ch.toNat ≤ 57 then some (ch.toNat - 48) else none

/-- Parse a nonempty all-digit character list as a decimal natural number. -/
def parseNatChars : List Char → Option Nat
  | [] => none
  | c :: cs =>
    ((c :: cs).mapM charDigit?).map (fun ds => Nat.ofDigits 10 ds.reverse)

/-! ### Port allocator (`getPortFromRange` / `releasePort`)

Source: `src/server/hlsmanager.ts` lines 664-688.  The JS method is declared
`async` but contains no `await`: the scan of `usedPorts` and the `add` of the
chosen port happen in one synchronous step, which the embedding models as a
single pure function from the used-port set to the chosen port and the
updated set. -/

/-- Linear scan: first port in `[start, start+len)` not in `used`
(models `for (let port = min; port <= max; port++)`). -/
def findFreePort (start : Nat) (len : Nat) (used : Finset Nat) : Option Nat :=
  match len with
  | 0 => none
  | Nat.succ len' =>
    if start ∈ used then findFreePort (start + 1) len' used else some start

/-- `getPortFromRange(min, max)`: scan `[min, max]`, then the fallback range
`[max+1, 65534]`; `none` models the thrown `No available ports found`. -/
def getPortFromRange (mn mx : Nat) (used : Finset Nat) : Option Nat :=
  match findFreePort mn (mx + 1 - mn) used with
  | some p => some p
  | none => findFreePort (mx + 1) (65535 - (mx + 1)) used

/-- The reserve step: the port chosen by `getPortFromRange` together with the
used-port set after `this.usedPorts.add(port)`; check and mark happen in the
same synchronous decision. -/
def reservePort (mn mx : Nat) (used : Finset Nat) : Option (Nat × Finset Nat) :=
  match getPortFromRange mn mx used with
  | some p => some (p, insert p used)
  | none => none

/-- `releasePort(port)`: `this.usedPorts.delete(port)`. -/
def releasePortSet (port : Nat) (used : Finset Nat) : Finset Nat :=
  used.erase port

/-- One client-visible operation against the allocator. -/
inductive AllocOp where
  | reserve (mn mx : Nat)
  | release (p : Nat)
deriving DecidableEq, Repr

/-- Allocator state: the used-port set of the manager, plus the list of
currently outstanding leases (ports handed out and not yet released). -/
structure AllocState where
  usedPorts : Finset Nat
  leases : List Nat
deriving DecidableEq

/-- Run one allocator operation (a failed reserve leaves the state as is). -/
def allocStep (s : AllocState) : AllocOp → AllocState
  | AllocOp.reserve mn mx =>
    match reservePort mn mx s.usedPorts with
    | some (p, used') => ⟨used', p :: s.leases⟩
    | none => s
  | AllocOp.release p => ⟨releasePortSet p s.usedPorts, s.leases.erase p⟩

/-- Run a sequence of allocator operations from the empty initial state. -/
def allocRun (ops : List AllocOp) : AllocState :=
  ops.foldl allocStep ⟨∅, []⟩

/-- The invariant tying the lease list to the used-port set. -/
def allocInv (s : AllocState) : Prop :=
  s.leases.Nodup ∧ s.leases.toFinset = s.usedPorts

/-! ### Producers, track selection and the layout table

Source: `src/server/hlsmanager.ts` lines 154-172 (selection) and 331-355
(filter graph). -/

/-- The kind of a media track. -/
inductive MediaKind where
  | audio
  | video
deriving DecidableEq, Repr

/-- A resolved mediasoup producer, as far as the controller reads it. -/
structure Producer where
  id : String
  kind : MediaKind
  closed : Bool
  paused : Bool
deriving DecidableEq, Repr

/-- `producers.filter(p => p.kind === 'video')`. -/
def videoProducersOf (producers : List Producer) : List Producer :=
  producers.filter (fun p => decide (p.kind = MediaKind.video))

/-- `producers.filter(p => p.kind === 'audio')`. -/
def audioProducersOf (producers : List Producer) : List Producer :=
  producers.filter (fun p => decide (p.kind = MediaKind.audio))

/-- `videoProducers.slice(0, Math.min(videoProducers.length, 4))`. -/
def selectedVideoProducers (producers : List Producer) : List Producer :=
  (videoProducersOf producers).take (min (videoProducersOf producers).length 4)

/-- The filter-graph string chosen for `numParticipants` selected video
tracks (the `filterComplex` if/else chain; the initial value is the empty
string, so counts outside 1..4 leave it empty). -/
def filterComplexFor (numParticipants : Nat) : String :=
  if numParticipants = 1 then
    "[0:v]scale=640:480,fps=30[v]"
  else if numParticipants = 2 then
    "[0:v]scale=320:240,fps=30[v0];[1:v]scale=320:240,fps=30[v1];[v0][v1]hstack=inputs=2[v]"
  else if numParticipants = 3 then
    "[0:v]scale=320:240,fps=30[v0];[1:v]scale=320:240,fps=30[v1];[2:v]scale=640:240,fps=30[v2];[v0][v1]hstack=inputs=2[top];[top][v2]vstack=inputs=2[v]"
  else if numParticipants = 4 then
    "[0:v]scale=320:240,fps=30[v0];[1:v]scale=320:240,fps=30[v1];[2:v]scale=320:240,fps=30[v2];[3:v]scale=320:240,fps=30[v3];[v0][v1]hstack=inputs=2[top];[v2][v3]hstack=inputs=2[bottom];[top][bottom]vstack=inputs=2[v]"
  else
    ""

/-! ### FFmpeg argument list

Source: `src/server/hlsmanager.ts` lines 294-399. -/

/-- `path.join(a, b)` for the forward-slash paths this server builds. -/
def pathJoin (a b : String) : String := a ++ "/" ++ b

/-- The synthetic silent-audio input used when no audio track is selected. -/
def anullsrcInput : String := "anullsrc=channel_layout=stereo:sample_rate=44100"

/-- Path of the i-th per-video descriptor file (`input_video_${i}.sdp`). -/
def videoSdpPath (roomOutputPath : String) (i : Nat) : String :=
  pathJoin roomOutputPath ("input_video_" ++ repNat i ++ ".sdp")

/-- The full ordered FFmpeg argument list assembled for a session:
global options, one input clause per video descriptor, the audio input
(real descriptor, or `anullsrc` when absent), filter graph and stream maps,
encoder settings, and HLS output settings. -/
def buildFfmpegArgs (logLevel : String) (sdpFiles : List String)
    (audioSdpFile : Option String) (filterComplex : String)
    (roomOutputPath : String) : List String :=
  (["-loglevel", logLevel,
    "-protocol_whitelist", "file,udp,rtp,crypto,data",
    "-thread_queue_size", "1024",
    "-reorder_queue_size", "4096"])
  ++ (sdpFiles.map (fun f =>
      ["-protocol_whitelist", "file,udp,rtp,crypto,data",
       "-fflags", "+genpts", "-i", f])).flatten
  ++ (match audioSdpFile with
      | some f =>
        ["-protocol_whitelist", "file,udp,rtp,crypto,data",
         "-fflags", "+genpts", "-i", f]
      | none => ["-f", "lavfi", "-i", anullsrcInput])
  ++ ["-filter_complex", filterComplex, "-map", "[v]",
      "-map", repNat sdpFiles.length ++ ":a"]
  ++ ["-c:v", "libx264", "-preset", "ultrafast", "-tune", "zerolatency",
      "-profile:v", "baseline", "-pix_fmt", "yuv420p", "-g", "30",
      "-keyint_min", "30", "-sc_threshold", "0", "-b:v", "1500k",
      "-minrate", "1500k", "-maxrate", "1500k", "-bufsize", "3000k",
      "-fps_mode", "cfr", "-r", "30", "-x264opts",
      "no-scenecut:nal-hrd=cbr:bitrate=1500:vbv-maxrate=1500:vbv-bufsize=3000",
      "-force_key_frames", "expr:gte(t,n_forced*2)"]
  ++ ["-c:a", "aac", "-b:a", "128k", "-ar", "44100", "-ac", "2"]
  ++ ["-f", "hls", "-hls_time", "2", "-hls_list_size", "5",
      "-hls_flags",
      "delete_segments+append_list+independent_segments+program_date_time",
      "-hls_segment_type", "mpegts", "-hls_init_time", "0",
      "-hls_segment_filename", pathJoin roomOutputPath "segment_%03d.ts",
      pathJoin roomOutputPath "playlist.m3u8"]

/-- The inputs of an FFmpeg argument list: the values directly following
each `-i` flag, in order. -/
def inputsOf : List String → List String
  | [] => []
  | [_] => []
  | a :: b :: rest =>
    if a = "-i" then b :: inputsOf rest else inputsOf (b :: rest)

/-! ### RTP parameters and the SDP descriptor builder

Source: `src/server/hlsmanager.ts` lines 580-661 (`createSdpFile`).  The
builder appends one `\n`-terminated line per `sdp +=` statement of the
source; `stringOfLines` renders that line sequence into the single
descriptor string. -/

/-- One rtcp feedback entry of a codec. -/
structure RtcpFeedback where
  type : String
  parameter : Option String
deriving DecidableEq, Repr

/-- One negotiated codec of a consumer's rtpParameters. -/
structure Codec where
  payloadType : Nat
  mimeType : String
  clockRate : Nat
  channels : Option Nat
  parameters : List (String × String)
  rtcpFeedback : List RtcpFeedback
deriving DecidableEq, Repr

/-- One RTP header extension mapping. -/
structure HeaderExtension where
  id : Nat
  uri : String
deriving DecidableEq, Repr

/-- One RTP encoding (only the ssrc is read by the builder). -/
structure RtpEncoding where
  ssrc : Option Nat
deriving DecidableEq, Repr

/-- The consumer's negotiated rtpParameters, as far as the builder reads
them. -/
structure RtpParameters where
  codecs : List Codec
  headerExtensions : List HeaderExtension
  encodings : List RtpEncoding
deriving DecidableEq, Repr

/-- A relay consumer, as far as this controller reads it. -/
structure Consumer where
  producerId : String
  kind : MediaKind
  paused : Bool
  rtpParameters : RtpParameters
deriving DecidableEq, Repr

/-- Split a character list at every occurrence of `c` (the separator is
dropped; `n` separators yield `n + 1` parts). -/
def splitOnChar (c : Char) : List Char → List (List Char)
  | [] => [[]]
  | x :: xs =>
    if x = c then [] :: splitOnChar c xs
    else
      match splitOnChar c xs with
      | l :: ls => (x :: l) :: ls
      | [] => [[x]]

/-- JS `mimeType.split('/')[1]` interpolated into a template literal:
the part after the first slash, or the string `undefined` when the mime
type has no slash. -/
def jsSplitGet1 (s : String) : String :=
  match splitOnChar '/' s.data with
  | _ :: b :: _ => String.mk b
  | _ => "undefined"

/-- JS `params.join(';')`. -/
def joinSemicolon : List String → String
  | [] => ""
  | [x] => x
  | x :: xs => x ++ ";" ++ joinSemicolon xs

/-- JS `channels || 2`: 2 when channels is absent or zero. -/
def channelsJS (c : Option Nat) : Nat :=
  match c with
  | some ch => if ch = 0 then 2 else ch
  | none => 2

/-- The fixed five header lines of every descriptor. -/
def sdpHeaderLines : List String :=
  ["v=0", "o=- 0 0 IN IP4 127.0.0.1", "s=MediaSoup HLS",
   "c=IN IP4 127.0.0.1", "t=0 0"]

/-- The `a=fmtp` line (emitted only when the codec has parameters). -/
def fmtpLines (pt : Nat) (params : List (String × String)) : List String :=
  if params = [] then []
  else
    ["a=fmtp:" ++ repNat pt ++ " "
      ++ joinSemicolon (params.map (fun kv => kv.1 ++ "=" ++ kv.2))]

/-- One `a=rtcp-fb` line (JS appends `' ' + fb.parameter` only when the
parameter is truthy, so an absent or empty parameter adds nothing). -/
def rtcpFbLine (pt : Nat) (fb : RtcpFeedback) : String :=
  "a=rtcp-fb:" ++ repNat pt ++ " " ++ fb.type
    ++ (match fb.parameter with
        | some p => if p = "" then "" else " " ++ p
        | none => "")

/-- One `a=extmap` line. -/
def extmapLine (e : HeaderExtension) : String :=
  "a=extmap:" ++ repNat e.id ++ " " ++ e.uri

/-- The `a=ssrc` lines: one per encoding with a truthy (nonzero) ssrc. -/
def ssrcLines (encodings : List RtpEncoding) : List String :=
  encodings.filterMap (fun e =>
    match e.ssrc with
    | some s =>
      if s = 0 then none
      else some ("a=ssrc:" ++ repNat s ++ " cname:mediasoup")
    | none => none)

/-- The ssrc values a descriptor carries for a consumer (the truthy ssrcs
of its encodings, in order). -/
def ssrcValues (c : Consumer) : List Nat :=
  c.rtpParameters.encodings.filterMap (fun e =>
    match e.ssrc with
    | some s => if s = 0 then none else some s
    | none => none)

/-- The video media section of the descriptor. -/
def sdpVideoLines (vc : Consumer) (videoPort : Nat) (c : Codec) :
    List String :=
  ["m=video " ++ repNat videoPort ++ " RTP/AVP " ++ repNat c.payloadType,
   "a=rtpmap:" ++ repNat c.payloadType ++ " " ++ jsSplitGet1 c.mimeType
     ++ "/" ++ repNat c.clockRate,
   "a=recvonly"]
  ++ fmtpLines c.payloadType c.parameters
  ++ c.rtcpFeedback.map (rtcpFbLine c.payloadType)
  ++ vc.rtpParameters.headerExtensions.map extmapLine
  ++ ssrcLines vc.rtpParameters.encodings

/-- The audio media section of the descriptor (rtpmap also carries the
channel count; no rtcp-fb lines are emitted for audio). -/
def sdpAudioLines (ac : Consumer) (audioPort : Nat) (c : Codec) :
    List String :=
  ["m=audio " ++ repNat audioPort ++ " RTP/AVP " ++ repNat c.payloadType,
   "a=rtpmap:" ++ repNat c.payloadType ++ " " ++ jsSplitGet1 c.mimeType
     ++ "/" ++ repNat c.clockRate ++ "/" ++ repNat (channelsJS c.channels),
   "a=recvonly"]
  ++ fmtpLines c.payloadType c.parameters
  ++ ac.rtpParameters.headerExtensions.map extmapLine
  ++ ssrcLines ac.rtpParameters.encodings

/-- The lines contributed by an optional consumer: nothing when the
consumer is absent or the port is falsy; `none` models the JS TypeError
raised by reading `codecs[0]` of an empty codec list. -/
def sdpSectionLines (consumer? : Option Consumer) (port : Nat)
    (isVideo : Bool) : Option (List String) :=
  match consumer? with
  | none => some []
  | some c =>
    if port = 0 then some []
    else
      match c.rtpParameters.codecs.head? with
      | none => none
      | some codec =>
        some (if isVideo then sdpVideoLines c port codec
              else sdpAudioLines c port codec)

/-- Render a line sequence into one string, each line `\n`-terminated. -/
def stringOfLines (ls : List String) : String :=
  (ls.map (fun l => l ++ "\n")).foldr (· ++ ·) ""

/-- `createSdpFile(videoConsumer, videoPort, audioConsumer, audioPort)`. -/
def createSdpFile (videoConsumer : Option Consumer) (videoPort : Nat)
    (audioConsumer : Option Consumer) (audioPort : Nat) : Option String :=
  match sdpSectionLines videoConsumer videoPort true,
        sdpSectionLines audioConsumer audioPort false with
  | some v, some a => some (stringOfLines (sdpHeaderLines ++ v ++ a))
  | _, _ => none

/-! ### SDP parser (for the round-trip property) -/

/-- Split a character list into lines at every newline. -/
def splitLinesChars : List Char → List (List Char)
  | [] => [[]]
  | c :: cs =>
    if c = '\n' then [] :: splitLinesChars cs
    else
      match splitLinesChars cs with
      | l :: ls => (c :: l) :: ls
      | [] => [[c]]

/-- Whether `l` starts with the pattern `p`. -/
def startsWithChars : List Char → List Char → Bool
  | [], _ => true
  | _ :: _, [] => false
  | p :: ps, c :: cs => p = c && startsWithChars ps cs

/-- First line satisfying `p`, together with the lines after it. -/
def findLineFrom (p : List Char → Bool) :
    List (List Char) → Option (List Char × List (List Char))
  | [] => none
  | l :: ls => if p l then some (l, ls) else findLineFrom p ls

/-- Parse an `a=ssrc` line: the decimal value between `a=ssrc:` and the
following space; `none` on any other line. -/
def ssrcLineParse (l : List Char) : Option Nat :=
  if startsWithChars "a=ssrc:".data l then
    parseNatChars ((l.drop 7).takeWhile (fun c => !(c = ' ')))
  else none

/-- Parse one media section: the payload type from the `m=` line, the
clock rate from its `a=rtpmap` line, and the ssrcs from its `a=ssrc`
lines. -/
def parseMediaSection (lines : List (List Char)) (marker : List Char) :
    Option (Nat × Nat × List Nat) := do
  let found ← findLineFrom (fun l => startsWithChars marker l) lines
  let ptTok ← (splitOnChar ' ' found.1)[3]?
  let pt ← parseNatChars ptTok
  let sec := found.2.takeWhile (fun l => !(startsWithChars "m=".data l))
  let rl ← sec.find? (fun l => startsWithChars "a=rtpmap:".data l)
  let afterTok ← (splitOnChar ' ' (rl.drop 9))[1]?
  let clockTok ← (splitOnChar '/' afterTok)[1]?
  let clock ← parseNatChars clockTok
  pure (pt, clock, sec.filterMap ssrcLineParse)

/-- Parse a descriptor: its video section and its audio section. -/
def parseSdp (s : String) :
    Option (Nat × Nat × List Nat) × Option (Nat × Nat × List Nat) :=
  (parseMediaSection (splitLinesChars s.data) "m=video ".data,
   parseMediaSection (splitLinesChars s.data) "m=audio ".data)

/-- Well-formedness of a codec as negotiated by the transport layer: the
mime subtype is a nonempty token (no space, slash or newline) and the
free-text fields carry no newline. -/
def wfCodec (c : Codec) : Prop :=
  ' ' ∉ (jsSplitGet1 c.mimeType).data ∧
  '/' ∉ (jsSplitGet1 c.mimeType).data ∧
  '\n' ∉ (jsSplitGet1 c.mimeType).data ∧
  (∀ kv ∈ c.parameters, '\n' ∉ kv.1.data ∧ '\n' ∉ kv.2.data) ∧
  (∀ fb ∈ c.rtcpFeedback, '\n' ∉ fb.type.data ∧
    ∀ p, fb.parameter = some p → '\n' ∉ p.data)

/-- Well-formedness of a consumer's header extensions: no newline in a
uri. -/
def wfExtensions (c : Consumer) : Prop :=
  ∀ e ∈ c.rtpParameters.headerExtensions, '\n' ∉ e.uri.data

/-- The string carries no newline character. -/
def noNL (s : String) : Prop := '\n' ∉ s.data

/-- A concrete VP8 video codec parameter set, for witnesses. -/
def demoVideoCodec : Codec :=
  ⟨96, "video/VP8", 90000, none, [("x-key", "17")], [⟨"nack", none⟩]⟩

/-- A concrete opus audio codec parameter set, for witnesses. -/
def demoAudioCodec : Codec :=
  ⟨111, "audio/opus", 48000, some 2, [], []⟩

/-- A concrete video relay consumer, for witnesses. -/
def demoVideoConsumer : Consumer :=
  ⟨"p1", MediaKind.video, true,
    ⟨[demoVideoCodec], [⟨1, "urn:3gpp:video-orientation"⟩],
      [⟨some 123456⟩]⟩⟩

/-- A concrete audio relay consumer, for witnesses. -/
def demoAudioConsumer : Consumer :=
  ⟨"p2", MediaKind.audio, true, ⟨[demoAudioCodec], [], [⟨some 654321⟩]⟩⟩

/-! ### Manager state, teardown and the start pipeline

Source: `src/server/hlsmanager.ts` lines 62-132 (`updateRoomStream`),
137-439 (`createMultiParticipantStream`), 444-545
(`setupFFmpegProcessHandlers`), 547-573 (`stopRoomHlsStream`).

The manager's mutable fields (`_activeRooms`, `usedPorts`,
`duplicateFrameCounters`, `rtpPacketLossCounters`) become an explicit
`ManagerState`; transports get numeric ids with a closed flag kept in the
state; the external router (transport creation, connect, consume) is an
oracle `RouterEnv` saying which step succeeds and what parameters a
consumer negotiates.  Every function also returns the list of observable
`Action`s it performed, in order.  File writes, the 500 ms settle delay
and the FFmpeg argument assembly perform no state mutation that the
controller reads back; the descriptor and argument texts are the pure
functions `createSdpFile` and `buildFfmpegArgs` above. -/

/-- Observable actions of a run, in program order. -/
inductive Action where
  | reservePort (p : Nat)
  | releasePort (p : Nat)
  | createTransport (tid : Nat)
  | connectTransport (tid : Nat) (port : Nat)
  | createConsumer (tid : Nat) (producerId : String) (paused : Bool)
  | closeTransport (tid : Nat)
  | killProcess (roomId : String)
  | spawnProcess (roomId : String)
  | resumeConsumer (producerId : String)
  | requestKeyFrame (producerId : String)
deriving DecidableEq, Repr

/-- Association-list get, modelling `Map.get`. -/
def alGet {κ β : Type} [DecidableEq κ] :
    List (κ × β) → κ → Option β
  | [], _ => none
  | (k', v) :: rest, k => if k' = k then some v else alGet rest k

/-- Association-list set, modelling `Map.set`. -/
def alSet {κ β : Type} [DecidableEq κ] :
    List (κ × β) → κ → β → List (κ × β)
  | [], k, v => [(k, v)]
  | (k', v') :: rest, k, v =>
    if k' = k then (k, v) :: rest else (k', v') :: alSet rest k v

/-- Association-list delete, modelling `Map.delete` (keys are unique in a
JS Map, so removing every binding of the key is the same operation). -/
def alErase {κ β : Type} [DecidableEq κ] :
    List (κ × β) → κ → List (κ × β)
  | [], _ => []
  | (k', v) :: rest, k =>
    if k' = k then alErase rest k else (k', v) :: alErase rest k

/-- One entry of `_activeRooms`. -/
structure RoomEntry where
  hasFfmpeg : Bool
  processId : Nat
  transportIds : List Nat
  outputPath : String
deriving DecidableEq, Repr

/-- The manager's mutable state. -/
structure ManagerState where
  activeRooms : List (String × RoomEntry)
  usedPorts : Finset Nat
  transportClosed : List (Nat × Bool)
  nextTid : Nat
  nextPid : Nat
  dupCounters : List (String × Nat)
  rtpCounters : List (String × Nat)
deriving DecidableEq

/-- Mark a transport closed (`transport.close()`). -/
def closeTransportState (s : ManagerState) (tid : Nat) : ManagerState :=
  { s with transportClosed := alSet s.transportClosed tid true }

/-- The `transport.closed` flag of a transport id. -/
def transportIsClosed (s : ManagerState) (tid : Nat) : Bool :=
  (alGet s.transportClosed tid).getD true

/-- Close every not-yet-closed transport of a list (the teardown loops;
closing is skipped for an already-closed transport). -/
def closeAllTransports : ManagerState → List Nat → ManagerState × List Action
  | s, [] => (s, [])
  | s, tid :: rest =>
    if transportIsClosed s tid then closeAllTransports s rest
    else
      let s' := closeTransportState s tid
      let r := closeAllTransports s' rest
      (r.1, Action.closeTransport tid :: r.2)

/-- `stopRoomHlsStream(roomId)`: no-op without an active session; otherwise
kill the process, close the session's transports, drop the room entry and
its warning counters.  It never throws (the kill and close errors are
caught), and it does not touch `usedPorts`. -/
def stopRoomHlsStream (s : ManagerState) (roomId : String) :
    ManagerState × List Action :=
  match alGet s.activeRooms roomId with
  | none => (s, [])
  | some entry =>
    let killActs :=
      if entry.hasFfmpeg then [Action.killProcess roomId] else []
    let r := closeAllTransports s entry.transportIds
    ({ r.1 with activeRooms := alErase r.1.activeRooms roomId,
                dupCounters := alErase r.1.dupCounters roomId,
                rtpCounters := alErase r.1.rtpCounters roomId },
     killActs ++ r.2)

/-- The outcome oracle for the external transport layer: whether the k-th
transport creation, connect and consume of a call succeed, and the
parameters the k-th consumer negotiates. -/
structure RouterEnv where
  createTransportOk : Nat → Bool
  connectOk : Nat → Bool
  consumeOk : Nat → Bool
  consumerParams : Nat → RtpParameters

/-- The errors a start request can raise. -/
inductive HlsError where
  | noProducers
  | noActiveProducers
  | noVideoProducers
  | noPortsAvailable
  | transportCreateFailed (idx : Nat)
  | connectFailed (idx : Nat)
  | consumeFailed (idx : Nat)
deriving DecidableEq, Repr

/-- Reserve `count` ports from the range (the up-front reservation loop);
on exhaustion the error propagates with the earlier reservations kept, as
in the source (the loop has no catch). -/
def reservePortsLoop (count mn mx : Nat) (s : ManagerState) :
    Option (List Nat) × ManagerState × List Action :=
  match count with
  | 0 => (some [], s, [])
  | Nat.succ k =>
    match reservePort mn mx s.usedPorts with
    | none => (none, s, [])
    | some pu =>
      let s1 := { s with usedPorts := pu.2 }
      let r := reservePortsLoop k mn mx s1
      match r.1 with
      | some ps => (some (pu.1 :: ps), r.2.1, Action.reservePort pu.1 :: r.2.2)
      | none => (none, r.2.1, Action.reservePort pu.1 :: r.2.2)

/-- Reserve the audio port when an audio producer was selected. -/
def reserveAudioPort (s : ManagerState) (hasAudio : Bool) :
    Option (Option Nat) × ManagerState × List Action :=
  if hasAudio then
    match reservePort 40101 40200 s.usedPorts with
    | none => (none, s, [])
    | some pu =>
      (some (some pu.1), { s with usedPorts := pu.2 },
       [Action.reservePort pu.1])
  else (some none, s, [])

/-- The per-video wiring loop (source lines 193-231): create a plain
transport, connect it to the reserved port, create a consumer in the
paused state; on any step failing the catch releases only the current
track's port and rethrows — transports already created stay open and the
other ports stay reserved. -/
def wireVideoLoop (env : RouterEnv) (s : ManagerState)
    (pairs : List (Producer × Nat)) (idx : Nat) :
    Except HlsError (List Nat × List Consumer × List (String × Nat))
      × ManagerState × List Action :=
  match pairs with
  | [] => (Except.ok ([], [], []), s, [])
  | (prod, port) :: rest =>
    if env.createTransportOk idx then
      let tid := s.nextTid
      let s1 := { s with
        transportClosed := alSet s.transportClosed tid false,
        nextTid := s.nextTid + 1 }
      if env.connectOk idx then
        if env.consumeOk idx then
          let consumer : Consumer :=
            ⟨prod.id, prod.kind, true, env.consumerParams idx⟩
          let r := wireVideoLoop env s1 rest (idx + 1)
          match r.1 with
          | Except.ok res =>
            (Except.ok (tid :: res.1, consumer :: res.2.1,
                (prod.id, port) :: res.2.2), r.2.1,
             Action.createTransport tid
               :: Action.connectTransport tid port
               :: Action.createConsumer tid prod.id true :: r.2.2)
          | Except.error e =>
            (Except.error e, r.2.1,
             Action.createTransport tid
               :: Action.connectTransport tid port
               :: Action.createConsumer tid prod.id true :: r.2.2)
        else
          (Except.error (HlsError.consumeFailed idx),
           { s1 with usedPorts := releasePortSet port s1.usedPorts },
           [Action.createTransport tid, Action.connectTransport tid port,
            Action.releasePort port])
      else
        (Except.error (HlsError.connectFailed idx),
         { s1 with usedPorts := releasePortSet port s1.usedPorts },
         [Action.createTransport tid, Action.releasePort port])
    else
      (Except.error (HlsError.transportCreateFailed idx),
       { s with usedPorts := releasePortSet port s.usedPorts },
       [Action.releasePort port])

/-- The audio wiring block (source lines 237-264), same failure policy. -/
def wireAudio (env : RouterEnv) (s : ManagerState)
    (audioProducer : Option Producer) (audioPort : Nat) (idx : Nat) :
    Except HlsError (Option (Nat × Consumer)) × ManagerState
      × List Action :=
  match audioProducer with
  | none => (Except.ok none, s, [])
  | some prod =>
    if env.createTransportOk idx then
      let tid := s.nextTid
      let s1 := { s with
        transportClosed := alSet s.transportClosed tid false,
        nextTid := s.nextTid + 1 }
      if env.connectOk idx then
        if env.consumeOk idx then
          let consumer : Consumer :=
            ⟨prod.id, prod.kind, true, env.consumerParams idx⟩
          (Except.ok (some (tid, consumer)), s1,
           [Action.createTransport tid,
            Action.connectTransport tid audioPort,
            Action.createConsumer tid prod.id true])
        else
          (Except.error (HlsError.consumeFailed idx),
           { s1 with usedPorts := releasePortSet audioPort s1.usedPorts },
           [Action.createTransport tid,
            Action.connectTransport tid audioPort,
            Action.releasePort audioPort])
      else
        (Except.error (HlsError.connectFailed idx),
         { s1 with usedPorts := releasePortSet audioPort s1.usedPorts },
         [Action.createTransport tid, Action.releasePort audioPort])
    else
      (Except.error (HlsError.transportCreateFailed idx),
       { s with usedPorts := releasePortSet audioPort s.usedPorts },
       [Action.releasePort audioPort])

/-- `createMultiParticipantStream` (source lines 137-439): stop any
existing session, reset the warning counters, select up to four video
tracks and one audio track, reserve all ports up front, wire the relays,
and spawn the process, registering the new session. -/
def createMultiParticipantStream (env : RouterEnv) (hlsOutputPath : String)
    (s : ManagerState) (roomId : String) (producers : List Producer) :
    Except HlsError String × ManagerState × List Action :=
  let stopped := stopRoomHlsStream s roomId
  let s2 := { stopped.1 with
    dupCounters := alSet stopped.1.dupCounters roomId 0,
    rtpCounters := alSet stopped.1.rtpCounters roomId 0 }
  let roomOutputPath := pathJoin hlsOutputPath roomId
  let videoProducers := videoProducersOf producers
  let audioProducers := audioProducersOf producers
  if videoProducers.isEmpty then
    (Except.error HlsError.noVideoProducers, s2, stopped.2)
  else
    let selected := videoProducers.take (min videoProducers.length 4)
    let audioProducer := audioProducers.head?
    let rv := reservePortsLoop selected.length 40000 40100 s2
    match rv.1 with
    | none =>
      (Except.error HlsError.noPortsAvailable, rv.2.1,
       stopped.2 ++ rv.2.2)
    | some videoPorts =>
      let ra := reserveAudioPort rv.2.1 audioProducer.isSome
      match ra.1 with
      | none =>
        (Except.error HlsError.noPortsAvailable, ra.2.1,
         stopped.2 ++ (rv.2.2 ++ ra.2.2))
      | some audioPort? =>
        let rw := wireVideoLoop env ra.2.1 (selected.zip videoPorts) 0
        match rw.1 with
        | Except.error e =>
          (Except.error e, rw.2.1, stopped.2 ++ (rv.2.2 ++ (ra.2.2 ++ rw.2.2)))
        | Except.ok wired =>
          let rwa := wireAudio env rw.2.1 audioProducer
            (audioPort?.getD 0) selected.length
          match rwa.1 with
          | Except.error e =>
            (Except.error e, rwa.2.1,
             stopped.2 ++ (rv.2.2 ++ (ra.2.2 ++ (rw.2.2 ++ rwa.2.2))))
          | Except.ok audioRes =>
            let allTids := wired.1 ++ (match audioRes with
              | some tc => [tc.1]
              | none => [])
            let pid := rwa.2.1.nextPid
            let s7 := { rwa.2.1 with
              nextPid := pid + 1,
              activeRooms := alSet rwa.2.1.activeRooms roomId
                ⟨true, pid, allTids, roomOutputPath⟩ }
            (Except.ok ("/hls/" ++ roomId ++ "/playlist.m3u8"), s7,
             stopped.2 ++ (rv.2.2 ++ (ra.2.2 ++ (rw.2.2 ++ (rwa.2.2
               ++ [Action.spawnProcess roomId])))))

/-- A reference to a producer as the update entry point receives it:
either a full producer object or an id to resolve against the router. -/
inductive ProducerRef where
  | full (p : Producer)
  | byId (id : String)
deriving DecidableEq, Repr

/-- Resolve the incoming references against the router's producer table
(source lines 82-112); a failed lookup is logged and skipped. -/
def resolveProducers (router : List Producer) :
    List ProducerRef → List Producer
  | [] => []
  | ProducerRef.full p :: rest => p :: resolveProducers router rest
  | ProducerRef.byId pid :: rest =>
    match router.find? (fun p => decide (p.id = pid)) with
    | some p => p :: resolveProducers router rest
    | none => resolveProducers router rest

/-- `updateRoomStream` (source lines 62-132): reject an empty producer
list, resolve the references, keep only active producers, reject when none
remain, then delegate to `createMultiParticipantStream`. -/
def updateRoomStream (env : RouterEnv) (hlsOutputPath : String)
    (router : List Producer) (s : ManagerState) (roomId : String)
    (producerRefs : List ProducerRef) :
    Except HlsError String × ManagerState × List Action :=
  if producerRefs.isEmpty then
    (Except.error HlsError.noProducers, s, [])
  else
    let realProducers := resolveProducers router producerRefs
    let activeProducers :=
      realProducers.filter (fun p => !p.closed && !p.paused)
    if activeProducers.isEmpty then
      (Except.error HlsError.noActiveProducers, s, [])
    else
      createMultiParticipantStream env hlsOutputPath s roomId
        activeProducers

/-- The warm-up delay before consumers are resumed (`setTimeout(..., 1000)`
in `setupFFmpegProcessHandlers`). -/
def resumeWarmupDelayMs : Nat := 1000

/-- The resume callback scheduled `resumeWarmupDelayMs` after spawn: when
the process has not exited (`exitCode === null`), resume every video
consumer and request a keyframe from each, then resume the audio consumer;
when the process has already exited, do nothing. -/
def resumeConsumersCallback (exitCode : Option Int)
    (videoConsumers : List Consumer) (audioConsumer : Option Consumer) :
    List Action :=
  if exitCode = none then
    (videoConsumers.map (fun c =>
      [Action.resumeConsumer c.producerId,
       Action.requestKeyFrame c.producerId])).flatten
    ++ (match audioConsumer with
        | some a => [Action.resumeConsumer a.producerId]
        | none => [])
  else []

/-- The `close` handler of the spawned process: release every port of the
session (the video port map's values, and the audio port when truthy),
close the transports, drop the warning counters, and deregister the room
when its entry still belongs to this process. -/
def releasePortsList : ManagerState → List Nat → ManagerState × List Action
  | s, [] => (s, [])
  | s, p :: rest =>
    let s' := { s with usedPorts := releasePortSet p s.usedPorts }
    let r := releasePortsList s' rest
    (r.1, Action.releasePort p :: r.2)

/-- See `releasePortsList`; this is the `close` event handler itself. -/
def ffmpegCloseHandler (s : ManagerState) (roomId : String) (pid : Nat)
    (videoPorts : List Nat) (audioPort : Nat) (transportIds : List Nat) :
    ManagerState × List Action :=
  let r1 := releasePortsList s videoPorts
  let r2 :=
    if audioPort ≠ 0 then
      ({ r1.1 with usedPorts := releasePortSet audioPort r1.1.usedPorts },
       [Action.releasePort audioPort])
    else (r1.1, [])
  let r3 := closeAllTransports r2.1 transportIds
  let s4 := { r3.1 with
    dupCounters := alErase r3.1.dupCounters roomId,
    rtpCounters := alErase r3.1.rtpCounters roomId }
  let s5 :=
    match alGet s4.activeRooms roomId with
    | some entry =>
      if entry.processId = pid then
        { s4 with activeRooms := alErase s4.activeRooms roomId }
      else s4
    | none => s4
  (s5, r1.2 ++ (r2.2 ++ r3.2))

/-- An environment in which every router operation succeeds. -/
def allOkEnv : RouterEnv :=
  ⟨fun _ => true, fun _ => true, fun _ => true, fun _ => ⟨[], [], []⟩⟩

/-- A producer of a live video track, for witnesses. -/
def demoVideoProducer : Producer :=
  ⟨"vp1", MediaKind.video, false, false⟩

/-- A manager state with one active session for room `r` holding port
40000 and transport 0, for witnesses. -/
def demoState1 : ManagerState :=
  ⟨[("r", ⟨true, 0, [0], "/hls/r"⟩)], {40000}, [(0, false)], 1, 1,
   [("r", 3)], [("r", 5)]⟩

/-- The empty initial manager state. -/
def emptyState : ManagerState := ⟨[], ∅, [], 0, 0, [], []⟩

/-- An environment in which only the consume step of the second track
(call index 1) fails. -/
def consumeFailEnv : RouterEnv :=
  ⟨fun _ => true, fun _ => true, fun i => decide (i ≠ 1),
   fun _ => ⟨[], [], []⟩⟩

/-- Two live video tracks, for the wiring-failure run. -/
def twoVideoRefs : List ProducerRef :=
  [ProducerRef.full ⟨"v1", MediaKind.video, false, false⟩,
   ProducerRef.full ⟨"v2", MediaKind.video, false, false⟩]

/-- The port releases that occur in a trace before its first port
reservation. -/
def priorReleases : List Action → List Nat
  | [] => []
  | Action.releasePort p :: rest => p :: priorReleases rest
  | Action.reservePort _ :: _ => []
  | _ :: rest => priorReleases rest

/-- Whether the trace reserves any port. -/
def hasReserve (tr : List Action) : Bool :=
  tr.any (fun a => match a with
    | Action.reservePort _ => true
    | _ => false)

/-- The claim's ordering property: if the run reserves any port, then
every port of the old session was released before the first
reservation. -/
def stoppedBeforeReserve (oldPorts : List Nat) (tr : List Action) : Prop :=
  hasReserve tr = true → ∀ p ∈ oldPorts, p ∈ priorReleases tr

end HlsModel

namespace HlsModel

theorem findFreePort_not_used {start len : Nat} {used : Finset Nat} {p : Nat}
    (h : findFreePort start len used = some p) : p ∉ used := by
  induction len generalizing start with
  | zero => simp [findFreePort] at h
  | succ len' ih =>
    rw [findFreePort] at h
    by_cases hs : start ∈ used
    · rw [if_pos hs] at h
      exact ih h
    · rw [if_neg hs] at h
      cases h
      exact hs

theorem getPortFromRange_not_used {mn mx : Nat} {used : Finset Nat} {p : Nat}
    (h : getPortFromRange mn mx used = some p) : p ∉ used := by
  rw [getPortFromRange] at h
  cases hf : findFreePort mn (mx + 1 - mn) used with
  | some q =>
    rw [hf] at h
    cases h
    exact findFreePort_not_used hf
  | none =>
    rw [hf] at h
    exact findFreePort_not_used h

theorem reservePort_spec {mn mx : Nat} {used : Finset Nat} {p : Nat}
    {used' : Finset Nat} (h : reservePort mn mx used = some (p, used')) :
    p ∉ used ∧ used' = insert p used := by
  rw [reservePort] at h
  cases hg : getPortFromRange mn mx used with
  | some q =>
    rw [hg] at h
    cases h
    exact ⟨getPortFromRange_not_used hg, rfl⟩
  | none => rw [hg] at h; cases h

theorem allocStep_inv {s : AllocState} (hs : allocInv s) (op : AllocOp) :
    allocInv (allocStep s op) := by
  obtain ⟨hnd, hset⟩ := hs
  cases op with
  | reserve mn mx =>
    rw [allocStep]
    cases hr : reservePort mn mx s.usedPorts with
    | some pu =>
      obtain ⟨p, used'⟩ := pu
      obtain ⟨hp, hu⟩ := reservePort_spec hr
      refine ⟨List.nodup_cons.2 ⟨?_, hnd⟩, ?_⟩
      · intro hmem
        exact hp (hset ▸ List.mem_toFinset.2 hmem)
      · simp [hu, ← hset]
    | none => exact ⟨hnd, hset⟩
  | release p =>
    refine ⟨hnd.erase p, ?_⟩
    simp only [allocStep, releasePortSet]
    rw [← hset]
    ext q
    simp [List.mem_toFinset, hnd.mem_erase_iff, Finset.mem_erase, and_comm]

theorem allocRun_inv (ops : List AllocOp) : allocInv (allocRun ops) := by
  have h : ∀ s, allocInv s → allocInv (ops.foldl allocStep s) := by
    induction ops with
    | nil => intro s hs; exact hs
    | cons op rest ih =>
      intro s hs
      exact ih _ (allocStep_inv hs op)
  exact h _ ⟨List.nodup_nil, by simp⟩

/-- C2: for every sequence of reserve/release calls, the outstanding leases
are pairwise distinct (no port is ever leased twice simultaneously); the
number of outstanding leases from a range `[mn, mx]` of size `K = mx + 1 - mn`
never exceeds `K`; and reserve is a single check-and-mark decision: it
returns only a port not currently in the used set and the resulting used set
is exactly the old one with that port inserted. -/
theorem claim_C2_port_allocator (ops : List AllocOp) (mn mx : Nat) :
    (allocRun ops).leases.Nodup ∧
    ((allocRun ops).leases.filter
      (fun p => decide (mn ≤ p ∧ p ≤ mx))).length ≤ mx + 1 - mn ∧
    (∀ p used', reservePort mn mx (allocRun ops).usedPorts = some (p, used') →
      p ∉ (allocRun ops).usedPorts ∧
      used' = insert p (allocRun ops).usedPorts) := by
  obtain ⟨hnd, -⟩ := allocRun_inv ops
  refine ⟨hnd, ?_, fun p used' h => reservePort_spec h⟩
  set l := (allocRun ops).leases.filter (fun p => decide (mn ≤ p ∧ p ≤ mx))
    with hl
  have hlnd : l.Nodup := hnd.filter _
  have hsub : l.toFinset ⊆ Finset.Icc mn mx := by
    intro q hq
    rw [List.mem_toFinset, hl, List.mem_filter] at hq
    have := of_decide_eq_true hq.2
    exact Finset.mem_Icc.2 this
  calc l.length = l.toFinset.card := (List.toFinset_card_of_nodup hlnd).symm
    _ ≤ (Finset.Icc mn mx).card := Finset.card_le_card hsub
    _ = mx + 1 - mn := Nat.card_Icc mn mx

/-- Witness for C2 at a concrete operation sequence: reserve twice in
`[40000, 40100]`, release the first port; the lease list is duplicate-free
and a further reserve picks the freed port `40000`, which is not in the
used set at that point. -/
theorem claim_C2_port_allocator_witness :
    (allocRun [AllocOp.reserve 40000 40100, AllocOp.reserve 40000 40100,
      AllocOp.release 40000]).leases.Nodup ∧
    40000 ∉ (allocRun [AllocOp.reserve 40000 40100,
      AllocOp.reserve 40000 40100, AllocOp.release 40000]).usedPorts := by
  have h := claim_C2_port_allocator [AllocOp.reserve 40000 40100,
    AllocOp.reserve 40000 40100, AllocOp.release 40000] 40000 40100
  exact ⟨h.1, (h.2.2 40000
    (insert 40000 (allocRun [AllocOp.reserve 40000 40100,
      AllocOp.reserve 40000 40100, AllocOp.release 40000]).usedPorts)
    (by decide)).1⟩

/-- C5: for every offered track list, at most 4 video tracks are selected
(the selection length is `min (number of video tracks) 4`), and for 1 to 4
offered video tracks the generated filter graph is exactly the fixed-table
layout: single scaled stream, horizontal side-by-side, two top tiles plus
full-width bottom tile, and 2x2 grid respectively. -/
theorem claim_C5_layout_table (producers : List Producer) :
    (selectedVideoProducers producers).length
      = min (videoProducersOf producers).length 4 ∧
    (selectedVideoProducers producers).length ≤ 4 ∧
    ((videoProducersOf producers).length = 1 →
      filterComplexFor (selectedVideoProducers producers).length
        = "[0:v]scale=640:480,fps=30[v]") ∧
    ((videoProducersOf producers).length = 2 →
      filterComplexFor (selectedVideoProducers producers).length
        = "[0:v]scale=320:240,fps=30[v0];[1:v]scale=320:240,fps=30[v1];[v0][v1]hstack=inputs=2[v]") ∧
    ((videoProducersOf producers).length = 3 →
      filterComplexFor (selectedVideoProducers producers).length
        = "[0:v]scale=320:240,fps=30[v0];[1:v]scale=320:240,fps=30[v1];[2:v]scale=640:240,fps=30[v2];[v0][v1]hstack=inputs=2[top];[top][v2]vstack=inputs=2[v]") ∧
    ((videoProducersOf producers).length = 4 →
      filterComplexFor (selectedVideoProducers producers).length
        = "[0:v]scale=320:240,fps=30[v0];[1:v]scale=320:240,fps=30[v1];[2:v]scale=320:240,fps=30[v2];[3:v]scale=320:240,fps=30[v3];[v0][v1]hstack=inputs=2[top];[v2][v3]hstack=inputs=2[bottom];[top][bottom]vstack=inputs=2[v]") := by
  have hlen : (selectedVideoProducers producers).length
      = min (videoProducersOf producers).length 4 := by
    simp [selectedVideoProducers, List.length_take]
  refine ⟨hlen, by omega, ?_, ?_, ?_, ?_⟩ <;>
    · intro h
      rw [hlen, h]
      rfl

/-- Witness for C5 at a concrete track list with two active video tracks
and one audio track: exactly two tracks are selected and the side-by-side
filter graph is produced. -/
theorem claim_C5_layout_table_witness :
    (selectedVideoProducers
      [⟨"v1", MediaKind.video, false, false⟩,
       ⟨"a1", MediaKind.audio, false, false⟩,
       ⟨"v2", MediaKind.video, false, false⟩]).length ≤ 4 ∧
    filterComplexFor (selectedVideoProducers
      [⟨"v1", MediaKind.video, false, false⟩,
       ⟨"a1", MediaKind.audio, false, false⟩,
       ⟨"v2", MediaKind.video, false, false⟩]).length
      = "[0:v]scale=320:240,fps=30[v0];[1:v]scale=320:240,fps=30[v1];[v0][v1]hstack=inputs=2[v]" := by
  have h := claim_C5_layout_table
    [⟨"v1", MediaKind.video, false, false⟩,
     ⟨"a1", MediaKind.audio, false, false⟩,
     ⟨"v2", MediaKind.video, false, false⟩]
  exact ⟨h.2.1, h.2.2.2.1 (by decide)⟩

theorem digitChars_ne_nil (n : Nat) : digitChars n ≠ [] := by
  by_cases h : n = 0
  · simp [digitChars, h]
  · simp [digitChars, h, Nat.digits_ne_nil_iff_ne_zero]

theorem repNat_length_pos (n : Nat) : 0 < (repNat n).length := by
  have h : (repNat n).length = (digitChars n).length := rfl
  rw [h]
  exact List.length_pos.2 (digitChars_ne_nil n)

theorem audioMapArg_ne_i (n : Nat) : repNat n ++ ":a" ≠ "-i" := by
  intro h
  have hlen := congrArg String.length h
  rw [String.length_append] at hlen
  have e1 : (":a" : String).length = 2 := rfl
  have e2 : ("-i" : String).length = 2 := rfl
  have := repNat_length_pos n
  omega

theorem pathJoin_ne_i (a b : String) (hb : 3 ≤ b.length) :
    pathJoin a b ≠ "-i" := by
  intro h
  have hlen := congrArg String.length h
  rw [pathJoin, String.length_append, String.length_append] at hlen
  have e1 : ("/" : String).length = 1 := rfl
  have e2 : ("-i" : String).length = 2 := rfl
  omega

theorem filterComplexFor_ne_i (m : Nat) : filterComplexFor m ≠ "-i" := by
  rw [filterComplexFor]
  repeat' split
  all_goals decide

theorem inputsOf_cons_ne (b : String) (t : List String) (hb : b ≠ "-i") :
    inputsOf (b :: t) = inputsOf t := by
  cases t with
  | nil => rfl
  | cons c t' =>
    rw [inputsOf, if_neg hb]

theorem inputsOf_i_cons (x : String) (t : List String) :
    inputsOf ("-i" :: x :: t) = x :: inputsOf t := by
  rw [inputsOf, if_pos rfl]

theorem inputsOf_eq_nil_of_not_mem (l : List String) (h : "-i" ∉ l) :
    inputsOf l = [] := by
  induction l with
  | nil => rfl
  | cons a t ih =>
    cases t with
    | nil => rfl
    | cons b t' =>
      rw [inputsOf, if_neg (fun he => h (by simp [he]))]
      exact ih (fun hm => h (List.mem_cons_of_mem _ hm))

theorem inputsOf_blocks (files : List String) (rest : List String) :
    inputsOf ((files.map (fun f =>
      ["-protocol_whitelist", "file,udp,rtp,crypto,data",
       "-fflags", "+genpts", "-i", f])).flatten ++ rest)
      = files ++ inputsOf rest := by
  induction files with
  | nil => simp
  | cons f fs ih =>
    simp only [List.map_cons, List.flatten_cons, List.cons_append,
      List.append_assoc]
    simp [inputsOf, ih]

theorem inputsOf_buildArgs_no_audio (logLevel fc room : String)
    (sdpFiles : List String) (hlog : logLevel ≠ "-i") (hfc : fc ≠ "-i") :
    inputsOf (buildFfmpegArgs logLevel sdpFiles none fc room)
      = sdpFiles ++ [anullsrcInput] := by
  rw [buildFfmpegArgs]
  simp only [List.cons_append, List.nil_append, List.append_assoc]
  rw [inputsOf_cons_ne _ _ (by decide)]
  rw [inputsOf_cons_ne _ _ hlog]
  rw [inputsOf_cons_ne _ _ (by decide)]
  rw [inputsOf_cons_ne _ _ (by decide)]
  rw [inputsOf_cons_ne _ _ (by decide)]
  rw [inputsOf_cons_ne _ _ (by decide)]
  rw [inputsOf_cons_ne _ _ (by decide)]
  rw [inputsOf_cons_ne _ _ (by decide)]
  rw [inputsOf_blocks]
  rw [inputsOf_cons_ne _ _ (by decide)]
  rw [inputsOf_cons_ne _ _ (by decide)]
  rw [inputsOf_i_cons]
  rw [inputsOf_eq_nil_of_not_mem]
  · intro hm
    have hseg : pathJoin room "segment_%03d.ts" ≠ "-i" :=
      pathJoin_ne_i _ _ (by decide)
    have hpl : pathJoin room "playlist.m3u8" ≠ "-i" :=
      pathJoin_ne_i _ _ (by decide)
    simp [Ne.symm hfc, Ne.symm (audioMapArg_ne_i sdpFiles.length),
      Ne.symm hseg, Ne.symm hpl] at hm

/-- C9: when a session starts with `n ≥ 1` eligible video tracks and no
audio track, the spawned argument list contains the synthetic silent-audio
input `anullsrc`: the inputs are exactly the `n` video descriptor files
followed by the `anullsrc` input, the audio stream map argument is
`n:a` — the index of that synthetic input — and for `n = 2` the chosen
filter graph is the side-by-side layout. -/
theorem claim_C9_silent_audio_fallback (logLevel roomOutputPath : String)
    (n : Nat) (sdpFiles args : List String) (hn : 1 ≤ n)
    (hlog : logLevel ≠ "-i")
    (hfiles : sdpFiles = (List.range n).map (videoSdpPath roomOutputPath))
    (hargs : args = buildFfmpegArgs logLevel sdpFiles none
      (filterComplexFor (min n 4)) roomOutputPath) :
    inputsOf args = sdpFiles ++ [anullsrcInput] ∧
    (inputsOf args)[n]? = some anullsrcInput ∧
    (∃ l r, args = l ++ ["-map", repNat n ++ ":a"] ++ r) ∧
    (n = 2 → filterComplexFor (min n 4)
      = "[0:v]scale=320:240,fps=30[v0];[1:v]scale=320:240,fps=30[v1];[v0][v1]hstack=inputs=2[v]") := by
  have hlen : sdpFiles.length = n := by
    rw [hfiles]
    simp
  have h1 : inputsOf args = sdpFiles ++ [anullsrcInput] := by
    rw [hargs]
    exact inputsOf_buildArgs_no_audio _ _ _ _ hlog (filterComplexFor_ne_i _)
  refine ⟨h1, ?_, ?_, ?_⟩
  · rw [h1, ← hlen]
    rw [List.getElem?_append_right (le_refl _)]
    simp
  · refine ⟨["-loglevel", logLevel,
      "-protocol_whitelist", "file,udp,rtp,crypto,data",
      "-thread_queue_size", "1024",
      "-reorder_queue_size", "4096"]
      ++ (sdpFiles.map (fun f =>
        ["-protocol_whitelist", "file,udp,rtp,crypto,data",
         "-fflags", "+genpts", "-i", f])).flatten
      ++ ["-f", "lavfi", "-i", anullsrcInput]
      ++ ["-filter_complex", filterComplexFor (min n 4), "-map", "[v]"],
      ["-c:v", "libx264", "-preset", "ultrafast", "-tune", "zerolatency",
       "-profile:v", "baseline", "-pix_fmt", "yuv420p", "-g", "30",
       "-keyint_min", "30", "-sc_threshold", "0", "-b:v", "1500k",
       "-minrate", "1500k", "-maxrate", "1500k", "-bufsize", "3000k",
       "-fps_mode", "cfr", "-r", "30", "-x264opts",
       "no-scenecut:nal-hrd=cbr:bitrate=1500:vbv-maxrate=1500:vbv-bufsize=3000",
       "-force_key_frames", "expr:gte(t,n_forced*2)"]
      ++ ["-c:a", "aac", "-b:a", "128k", "-ar", "44100", "-ac", "2"]
      ++ ["-f", "hls", "-hls_time", "2", "-hls_list_size", "5",
          "-hls_flags",
          "delete_segments+append_list+independent_segments+program_date_time",
          "-hls_segment_type", "mpegts", "-hls_init_time", "0",
          "-hls_segment_filename", pathJoin roomOutputPath "segment_%03d.ts",
          pathJoin roomOutputPath "playlist.m3u8"], ?_⟩
    rw [hargs, buildFfmpegArgs, hlen]
    simp only [List.cons_append, List.nil_append, List.append_assoc]
  · intro h2
    rw [h2]
    rfl

theorem natDigitChar_toNat {d : Nat} (hd : d < 10) :
    (natDigitChar d).toNat = 48 + d := by
  interval_cases d <;> rfl

theorem charDigit?_natDigitChar {d : Nat} (hd : d < 10) :
    charDigit? (natDigitChar d) = some d := by
  interval_cases d <;> rfl

theorem digitChars_digit {n : Nat} :
    ∀ c ∈ digitChars n, 48 ≤ c.toNat ∧ c.toNat ≤ 57 := by
  intro c hc
  rw [digitChars] at hc
  by_cases h : n = 0
  · rw [if_pos h] at hc
    simp at hc
    subst hc
    exact ⟨le_refl _, by decide⟩
  · rw [if_neg h] at hc
    rw [List.mem_reverse, List.mem_map] at hc
    obtain ⟨d, hd, rfl⟩ := hc
    have hd10 : d < 10 := Nat.digits_lt_base (by norm_num) hd
    rw [natDigitChar_toNat hd10]
    omega

theorem not_mem_digitChars {ch : Char} {n : Nat}
    (h : ch.toNat < 48 ∨ 57 < ch.toNat) : ch ∉ digitChars n := by
  intro hm
  have := digitChars_digit ch hm
  omega

theorem space_not_mem_digitChars {n : Nat} : ' ' ∉ digitChars n :=
  not_mem_digitChars (Or.inl (by decide))

theorem slash_not_mem_digitChars {n : Nat} : '/' ∉ digitChars n :=
  not_mem_digitChars (Or.inl (by decide))

theorem nl_not_mem_digitChars {n : Nat} : '\n' ∉ digitChars n :=
  not_mem_digitChars (Or.inl (by decide))

theorem mapM_charDigit_natDigitChar (ds : List Nat) (h : ∀ d ∈ ds, d < 10) :
    (ds.map natDigitChar).mapM charDigit? = some ds := by
  induction ds with
  | nil => rfl
  | cons d ds ih =>
    rw [List.map_cons, List.mapM_cons,
      charDigit?_natDigitChar (h d (List.mem_cons_self d ds)),
      ih (fun x hx => h x (List.mem_cons_of_mem _ hx))]
    rfl

theorem parseNatChars_digitChars (n : Nat) :
    parseNatChars (digitChars n) = some n := by
  by_cases h : n = 0
  · subst h
    decide
  · have hmap : (digitChars n).mapM charDigit?
        = some (Nat.digits 10 n).reverse := by
      rw [digitChars, if_neg h, ← List.map_reverse]
      exact mapM_charDigit_natDigitChar _
        (fun d hd => Nat.digits_lt_base (by norm_num) (List.mem_reverse.1 hd))
    obtain ⟨c, cs, hc⟩ : ∃ c cs, digitChars n = c :: cs := by
      cases hl : digitChars n with
      | nil => exact absurd hl (digitChars_ne_nil n)
      | cons c cs => exact ⟨c, cs, rfl⟩
    rw [hc] at hmap ⊢
    rw [parseNatChars, hmap]
    simp [Nat.ofDigits_digits]

theorem splitOnChar_sep (c : Char) (xs ys : List Char) (h : c ∉ xs) :
    splitOnChar c (xs ++ c :: ys) = xs :: splitOnChar c ys := by
  induction xs with
  | nil => simp [splitOnChar]
  | cons a xs ih =>
    have ha : a ≠ c := fun he => h (he ▸ List.mem_cons_self _ _)
    rw [List.cons_append, splitOnChar, if_neg ha,
      ih (fun hm => h (List.mem_cons_of_mem _ hm))]

theorem splitOnChar_no_sep (c : Char) (xs : List Char) (h : c ∉ xs) :
    splitOnChar c xs = [xs] := by
  induction xs with
  | nil => rfl
  | cons a xs ih =>
    have ha : a ≠ c := fun he => h (he ▸ List.mem_cons_self _ _)
    rw [splitOnChar, if_neg ha, ih (fun hm => h (List.mem_cons_of_mem _ hm))]

theorem startsWithChars_of_append (p r : List Char) :
    startsWithChars p (p ++ r) = true := by
  induction p with
  | nil => rfl
  | cons a p ih => simp [startsWithChars, ih]

theorem findLineFrom_skip (p : List Char → Bool) (l : List Char)
    (ls : List (List Char)) (h : p l = false) :
    findLineFrom p (l :: ls) = findLineFrom p ls := by
  simp [findLineFrom, h]

theorem findLineFrom_hit (p : List Char → Bool) (l : List Char)
    (ls : List (List Char)) (h : p l = true) :
    findLineFrom p (l :: ls) = some (l, ls) := by
  simp [findLineFrom, h]

theorem findLineFrom_none (p : List Char → Bool) (ls : List (List Char))
    (h : ∀ l ∈ ls, p l = false) : findLineFrom p ls = none := by
  induction ls with
  | nil => rfl
  | cons l ls ih =>
    rw [findLineFrom, if_neg (by simp [h l (List.mem_cons_self l ls)]),
      ih (fun x hx => h x (List.mem_cons_of_mem _ hx))]

theorem takeWhile_of_all {α : Type} (p : α → Bool) (l : List α)
    (h : ∀ x ∈ l, p x = true) : l.takeWhile p = l := by
  induction l with
  | nil => rfl
  | cons a l ih =>
    rw [List.takeWhile_cons, if_pos (h a (List.mem_cons_self a l)),
      ih (fun x hx => h x (List.mem_cons_of_mem _ hx))]

theorem takeWhile_until {α : Type} (p : α → Bool) (xs ys : List α) (y : α)
    (hall : ∀ x ∈ xs, p x = true) (hy : p y = false) :
    (xs ++ y :: ys).takeWhile p = xs := by
  induction xs with
  | nil => simp [List.takeWhile_cons, hy]
  | cons a xs ih =>
    rw [List.cons_append, List.takeWhile_cons,
      if_pos (hall a (List.mem_cons_self a xs)),
      ih (fun x hx => hall x (List.mem_cons_of_mem _ hx))]

theorem stringOfLines_data (ls : List String) :
    (stringOfLines ls).data
      = (ls.map (fun l => l.data ++ ['\n'])).flatten := by
  induction ls with
  | nil => rfl
  | cons l ls ih =>
    simp only [stringOfLines, List.map_cons, List.foldr_cons,
      String.data_append] at ih ⊢
    rw [ih]
    rfl

theorem splitLinesChars_append_nl (xs ys : List Char) (h : '\n' ∉ xs) :
    splitLinesChars (xs ++ '\n' :: ys) = xs :: splitLinesChars ys := by
  induction xs with
  | nil => simp [splitLinesChars]
  | cons a xs ih =>
    have ha : a ≠ '\n' := fun he => h (he ▸ List.mem_cons_self _ _)
    rw [List.cons_append, splitLinesChars, if_neg ha,
      ih (fun hm => h (List.mem_cons_of_mem _ hm))]

theorem splitLines_flatten (ls : List String)
    (h : ∀ l ∈ ls, '\n' ∉ l.data) :
    splitLinesChars ((ls.map (fun l => l.data ++ ['\n'])).flatten)
      = ls.map (fun l => l.data) ++ [[]] := by
  induction ls with
  | nil => rfl
  | cons l ls ih =>
    simp only [List.map_cons, List.flatten_cons, List.append_assoc,
      List.singleton_append]
    rw [splitLinesChars_append_nl _ _ (h l (List.mem_cons_self l ls)),
      ih (fun x hx => h x (List.mem_cons_of_mem _ hx))]
    rfl

theorem repNat_data (n : Nat) : (repNat n).data = digitChars n := rfl

theorem data_m2 : ("m=" : String).data = ['m', '='] := rfl

theorem data_assrc :
    ("a=ssrc:" : String).data = ['a', '=', 's', 's', 'r', 'c', ':'] := rfl

theorem data_artpmap : ("a=rtpmap:" : String).data
    = ['a', '=', 'r', 't', 'p', 'm', 'a', 'p', ':'] := rfl

theorem not_m_of_aline (c₃ : Char) (t : List Char) :
    startsWithChars "m=".data ('a' :: '=' :: c₃ :: t) = false := by
  simp [data_m2, startsWithChars]

theorem ssrcLineParse_none_of_aline {c₃ : Char} (t : List Char)
    (h : c₃ ≠ 's') : ssrcLineParse ('a' :: '=' :: c₃ :: t) = none := by
  simp [ssrcLineParse, data_assrc, startsWithChars, Ne.symm h]

theorem ssrcLineParse_ssrcLine (s : Nat) :
    ssrcLineParse ("a=ssrc:" ++ repNat s ++ " cname:mediasoup").data
      = some s := by
  have hdata : ("a=ssrc:" ++ repNat s ++ " cname:mediasoup").data
      = "a=ssrc:".data
        ++ (digitChars s ++ ' ' :: "cname:mediasoup".data) := by
    simp only [String.data_append, repNat_data, List.append_assoc]
  rw [ssrcLineParse, hdata, if_pos (startsWithChars_of_append _ _)]
  have h7 : ("a=ssrc:" : String).data.length = 7 := rfl
  rw [show (7 : Nat) = ("a=ssrc:" : String).data.length from rfl,
    List.drop_left]
  rw [takeWhile_until _ _ _ _
    (fun c hc => by
      simp [show c ≠ ' ' from fun he => space_not_mem_digitChars (he ▸ hc)])
    (by simp)]
  exact parseNatChars_digitChars s

theorem mem_ssrcLines {x : String} {encs : List RtpEncoding}
    (hx : x ∈ ssrcLines encs) :
    ∃ s : Nat, x = "a=ssrc:" ++ repNat s ++ " cname:mediasoup" := by
  rw [ssrcLines, List.mem_filterMap] at hx
  obtain ⟨e, he, hfe⟩ := hx
  cases hs : e.ssrc with
  | none => rw [hs] at hfe; simp at hfe
  | some s =>
    rw [hs] at hfe
    by_cases h0 : s = 0
    · simp [h0] at hfe
    · simp only [h0, if_false, reduceIte] at hfe
      cases hfe
      exact ⟨s, rfl⟩

theorem filterMap_ssrcLines_data (encs : List RtpEncoding) :
    ((ssrcLines encs).map (fun l => l.data)).filterMap ssrcLineParse
      = encs.filterMap (fun e =>
          match e.ssrc with
          | some s => if s = 0 then none else some s
          | none => none) := by
  induction encs with
  | nil => rfl
  | cons e encs ih =>
    simp only [ssrcLines] at ih ⊢
    rw [List.filterMap_cons, List.filterMap_cons]
    cases hs : e.ssrc with
    | none =>
      simp only [hs]
      exact ih
    | some s =>
      by_cases h0 : s = 0
      · simp only [hs, h0, if_true, reduceIte]
        exact ih
      · simp only [hs, h0, if_false, reduceIte, List.map_cons,
          List.filterMap_cons, ssrcLineParse_ssrcLine]
        rw [ih]

theorem mem_fmtpLines {x : String} {pt : Nat} {ps : List (String × String)}
    (hx : x ∈ fmtpLines pt ps) :
    x = "a=fmtp:" ++ repNat pt ++ " "
      ++ joinSemicolon (ps.map (fun kv => kv.1 ++ "=" ++ kv.2)) := by
  rw [fmtpLines] at hx
  split at hx
  · simp at hx
  · simp at hx
    exact hx

theorem filterMap_none_of_all {α β : Type} (f : α → Option β) (l : List α)
    (h : ∀ x ∈ l, f x = none) : l.filterMap f = [] := by
  induction l with
  | nil => rfl
  | cons a l ih =>
    rw [List.filterMap_cons, h a (List.mem_cons_self a l)]
    exact ih (fun x hx => h x (List.mem_cons_of_mem _ hx))

theorem not_mvideo_of_aline (c₃ : Char) (t : List Char) :
    startsWithChars "m=video ".data ('a' :: '=' :: c₃ :: t) = false := by
  simp [show ("m=video " : String).data
    = ['m', '=', 'v', 'i', 'd', 'e', 'o', ' '] from rfl, startsWithChars]

theorem not_maudio_of_aline (c₃ : Char) (t : List Char) :
    startsWithChars "m=audio ".data ('a' :: '=' :: c₃ :: t) = false := by
  simp [show ("m=audio " : String).data
    = ['m', '=', 'a', 'u', 'd', 'i', 'o', ' '] from rfl, startsWithChars]

theorem not_mvideo_of_maudio (t : List Char) :
    startsWithChars "m=video ".data ('m' :: '=' :: 'a' :: t) = false := by
  simp [show ("m=video " : String).data
    = ['m', '=', 'v', 'i', 'd', 'e', 'o', ' '] from rfl, startsWithChars]

theorem not_maudio_of_mvideo (t : List Char) :
    startsWithChars "m=audio ".data ('m' :: '=' :: 'v' :: t) = false := by
  simp [show ("m=audio " : String).data
    = ['m', '=', 'a', 'u', 'd', 'i', 'o', ' '] from rfl, startsWithChars]

theorem not_m_of_mem_fmtp {l : List Char} {pt : Nat}
    {ps : List (String × String)}
    (h : l ∈ (fmtpLines pt ps).map (fun s => s.data)) :
    startsWithChars "m=".data l = false := by
  rw [List.mem_map] at h
  obtain ⟨x, hx, rfl⟩ := h
  rw [mem_fmtpLines hx]
  exact not_m_of_aline _ _

theorem ssrcnone_of_mem_fmtp {l : List Char} {pt : Nat}
    {ps : List (String × String)}
    (h : l ∈ (fmtpLines pt ps).map (fun s => s.data)) :
    ssrcLineParse l = none := by
  rw [List.mem_map] at h
  obtain ⟨x, hx, rfl⟩ := h
  rw [mem_fmtpLines hx]
  exact ssrcLineParse_none_of_aline _ (by decide)

theorem not_m_of_mem_fb {l : List Char} {pt : Nat} {fbs : List RtcpFeedback}
    (h : l ∈ (fbs.map (rtcpFbLine pt)).map (fun s => s.data)) :
    startsWithChars "m=".data l = false := by
  rw [List.mem_map] at h
  obtain ⟨x, hx, rfl⟩ := h
  rw [List.mem_map] at hx
  obtain ⟨fb, hfb, rfl⟩ := hx
  exact not_m_of_aline _ _

theorem ssrcnone_of_mem_fb {l : List Char} {pt : Nat}
    {fbs : List RtcpFeedback}
    (h : l ∈ (fbs.map (rtcpFbLine pt)).map (fun s => s.data)) :
    ssrcLineParse l = none := by
  rw [List.mem_map] at h
  obtain ⟨x, hx, rfl⟩ := h
  rw [List.mem_map] at hx
  obtain ⟨fb, hfb, rfl⟩ := hx
  exact ssrcLineParse_none_of_aline _ (by decide)

theorem not_m_of_mem_ext {l : List Char} {exts : List HeaderExtension}
    (h : l ∈ (exts.map extmapLine).map (fun s => s.data)) :
    startsWithChars "m=".data l = false := by
  rw [List.mem_map] at h
  obtain ⟨x, hx, rfl⟩ := h
  rw [List.mem_map] at hx
  obtain ⟨e, he, rfl⟩ := hx
  exact not_m_of_aline _ _

theorem ssrcnone_of_mem_ext {l : List Char} {exts : List HeaderExtension}
    (h : l ∈ (exts.map extmapLine).map (fun s => s.data)) :
    ssrcLineParse l = none := by
  rw [List.mem_map] at h
  obtain ⟨x, hx, rfl⟩ := h
  rw [List.mem_map] at hx
  obtain ⟨e, he, rfl⟩ := hx
  exact ssrcLineParse_none_of_aline _ (by decide)

theorem not_m_of_mem_ssrc {l : List Char} {encs : List RtpEncoding}
    (h : l ∈ (ssrcLines encs).map (fun s => s.data)) :
    startsWithChars "m=".data l = false := by
  rw [List.mem_map] at h
  obtain ⟨x, hx, rfl⟩ := h
  obtain ⟨s, rfl⟩ := mem_ssrcLines hx
  exact not_m_of_aline _ _

theorem marker_false_of_mem_fmtp {l : List Char} {pt : Nat}
    {ps : List (String × String)} (marker : List Char)
    (hm : ∀ c₃ t, startsWithChars marker ('a' :: '=' :: c₃ :: t) = false)
    (h : l ∈ (fmtpLines pt ps).map (fun s => s.data)) :
    startsWithChars marker l = false := by
  rw [List.mem_map] at h
  obtain ⟨x, hx, rfl⟩ := h
  rw [mem_fmtpLines hx]
  exact hm _ _

theorem marker_false_of_mem_fb {l : List Char} {pt : Nat}
    {fbs : List RtcpFeedback} (marker : List Char)
    (hm : ∀ c₃ t, startsWithChars marker ('a' :: '=' :: c₃ :: t) = false)
    (h : l ∈ (fbs.map (rtcpFbLine pt)).map (fun s => s.data)) :
    startsWithChars marker l = false := by
  rw [List.mem_map] at h
  obtain ⟨x, hx, rfl⟩ := h
  rw [List.mem_map] at hx
  obtain ⟨fb, hfb, rfl⟩ := hx
  exact hm _ _

theorem marker_false_of_mem_ext {l : List Char} {exts : List HeaderExtension}
    (marker : List Char)
    (hm : ∀ c₃ t, startsWithChars marker ('a' :: '=' :: c₃ :: t) = false)
    (h : l ∈ (exts.map extmapLine).map (fun s => s.data)) :
    startsWithChars marker l = false := by
  rw [List.mem_map] at h
  obtain ⟨x, hx, rfl⟩ := h
  rw [List.mem_map] at hx
  obtain ⟨e, he, rfl⟩ := hx
  exact hm _ _

theorem marker_false_of_mem_ssrc {l : List Char} {encs : List RtpEncoding}
    (marker : List Char)
    (hm : ∀ c₃ t, startsWithChars marker ('a' :: '=' :: c₃ :: t) = false)
    (h : l ∈ (ssrcLines encs).map (fun s => s.data)) :
    startsWithChars marker l = false := by
  rw [List.mem_map] at h
  obtain ⟨x, hx, rfl⟩ := h
  obtain ⟨s, rfl⟩ := mem_ssrcLines hx
  exact hm _ _

theorem parseMediaSection_video_lines_no_audio (vc : Consumer) (vp : Nat)
    (cv : Codec) :
    parseMediaSection
      ((sdpHeaderLines ++ sdpVideoLines vc vp cv).map (fun l => l.data)
        ++ [[]]) "m=audio ".data = none := by
  rw [parseMediaSection, findLineFrom_none]
  · rfl
  · intro l hl
    simp only [sdpHeaderLines, sdpVideoLines, List.map_append, List.map_cons,
      List.map_nil, List.cons_append, List.nil_append, List.append_assoc,
      List.mem_cons, List.mem_append] at hl
    rcases hl with rfl | rfl | rfl | rfl | rfl | rfl | rfl | rfl
      | hF | hB | hE | hS | rfl | h
    · decide
    · decide
    · decide
    · decide
    · decide
    · exact not_maudio_of_mvideo _
    · exact not_maudio_of_aline _ _
    · decide
    · exact marker_false_of_mem_fmtp _ (fun c₃ t => not_maudio_of_aline c₃ t) hF
    · exact marker_false_of_mem_fb _ (fun c₃ t => not_maudio_of_aline c₃ t) hB
    · exact marker_false_of_mem_ext _ (fun c₃ t => not_maudio_of_aline c₃ t) hE
    · exact marker_false_of_mem_ssrc _ (fun c₃ t => not_maudio_of_aline c₃ t) hS
    · decide
    · exact absurd h (List.not_mem_nil _)

theorem parseMediaSection_audio_lines_no_video (ac : Consumer) (ap : Nat)
    (ca : Codec) :
    parseMediaSection
      ((sdpHeaderLines ++ sdpAudioLines ac ap ca).map (fun l => l.data)
        ++ [[]]) "m=video ".data = none := by
  rw [parseMediaSection, findLineFrom_none]
  · rfl
  · intro l hl
    simp only [sdpHeaderLines, sdpAudioLines, List.map_append, List.map_cons,
      List.map_nil, List.cons_append, List.nil_append, List.append_assoc,
      List.mem_cons, List.mem_append] at hl
    rcases hl with rfl | rfl | rfl | rfl | rfl | rfl | rfl | rfl
      | hF | hE | hS | rfl | h
    · decide
    · decide
    · decide
    · decide
    · decide
    · exact not_mvideo_of_maudio _
    · exact not_mvideo_of_aline _ _
    · decide
    · exact marker_false_of_mem_fmtp _ (fun c₃ t => not_mvideo_of_aline c₃ t) hF
    · exact marker_false_of_mem_ext _ (fun c₃ t => not_mvideo_of_aline c₃ t) hE
    · exact marker_false_of_mem_ssrc _ (fun c₃ t => not_mvideo_of_aline c₃ t) hS
    · decide
    · exact absurd h (List.not_mem_nil _)

theorem parseMediaSection_video_only (vc : Consumer) (vp : Nat) (cv : Codec)
    (hwf : wfCodec cv) :
    parseMediaSection
      ((sdpHeaderLines ++ sdpVideoLines vc vp cv).map (fun l => l.data)
        ++ [[]]) "m=video ".data
      = some (cv.payloadType, cv.clockRate, ssrcValues vc) := by
  obtain ⟨hsp, hsl, -, -, -⟩ := hwf
  have hall : ∀ l ∈ (("a=rtpmap:" ++ repNat cv.payloadType ++ " "
        ++ jsSplitGet1 cv.mimeType ++ "/" ++ repNat cv.clockRate).data
      :: ['a', '=', 'r', 'e', 'c', 'v', 'o', 'n', 'l', 'y']
      :: ((fmtpLines cv.payloadType cv.parameters).map (fun l => l.data)
        ++ ((cv.rtcpFeedback.map (rtcpFbLine cv.payloadType)).map
              (fun l => l.data)
          ++ ((vc.rtpParameters.headerExtensions.map extmapLine).map
                (fun l => l.data)
            ++ ((ssrcLines vc.rtpParameters.encodings).map (fun l => l.data)
              ++ [[]]))))),
      (!(startsWithChars ['m', '='] l)) = true := by
    intro l hl
    rw [Bool.not_eq_true']
    simp only [List.mem_cons, List.mem_append] at hl
    rcases hl with rfl | rfl | hF | hB | hE | hS | rfl | h
    · exact not_m_of_aline _ _
    · decide
    · exact not_m_of_mem_fmtp hF
    · exact not_m_of_mem_fb hB
    · exact not_m_of_mem_ext hE
    · exact not_m_of_mem_ssrc hS
    · decide
    · exact absurd h (List.not_mem_nil _)
  simp only [sdpHeaderLines, sdpVideoLines, List.map_append, List.map_cons,
    List.map_nil, List.cons_append, List.nil_append, List.append_assoc]
  rw [parseMediaSection]
  rw [findLineFrom_skip _ _ _ (by decide), findLineFrom_skip _ _ _ (by decide),
    findLineFrom_skip _ _ _ (by decide), findLineFrom_skip _ _ _ (by decide),
    findLineFrom_skip _ _ _ (by decide),
    findLineFrom_hit _ _ _ (by exact startsWithChars_of_append _ _)]
  simp only [Option.bind_eq_bind, Option.some_bind, Option.pure_def]
  have e1 : ("m=video " ++ repNat vp ++ " RTP/AVP "
      ++ repNat cv.payloadType).data
      = ['m', '=', 'v', 'i', 'd', 'e', 'o'] ++ ' ' :: (digitChars vp
          ++ ' ' :: (['R', 'T', 'P', '/', 'A', 'V', 'P']
            ++ ' ' :: digitChars cv.payloadType)) := by
    simp only [String.data_append, repNat_data]
    simp [List.append_assoc, List.cons_append, List.singleton_append]
  rw [e1, splitOnChar_sep _ _ _ (by decide),
    splitOnChar_sep _ _ _ space_not_mem_digitChars,
    splitOnChar_sep _ _ _ (by decide),
    splitOnChar_no_sep _ _ space_not_mem_digitChars]
  rw [show ((['m', '=', 'v', 'i', 'd', 'e', 'o'] : List Char)
      :: digitChars vp :: ['R', 'T', 'P', '/', 'A', 'V', 'P']
      :: [digitChars cv.payloadType])[3]?
      = some (digitChars cv.payloadType) from rfl]
  simp only [Option.bind_eq_bind, Option.some_bind, Option.pure_def]
  rw [parseNatChars_digitChars]
  simp only [Option.bind_eq_bind, Option.some_bind, Option.pure_def]
  rw [takeWhile_of_all _ _ hall]
  rw [List.find?_cons_of_pos _ (by exact startsWithChars_of_append _ _)]
  simp only [Option.bind_eq_bind, Option.some_bind, Option.pure_def]
  have e2 : ("a=rtpmap:" ++ repNat cv.payloadType ++ " "
      ++ jsSplitGet1 cv.mimeType ++ "/" ++ repNat cv.clockRate).data
      = ['a', '=', 'r', 't', 'p', 'm', 'a', 'p', ':']
          ++ (digitChars cv.payloadType
          ++ ' ' :: ((jsSplitGet1 cv.mimeType).data
            ++ '/' :: digitChars cv.clockRate)) := by
    simp only [String.data_append, repNat_data]
    simp [List.append_assoc, List.cons_append, List.singleton_append]
  rw [e2]
  rw [show (9 : Nat)
      = (['a', '=', 'r', 't', 'p', 'm', 'a', 'p', ':'] : List Char).length
      from rfl, List.drop_left]
  have hnos : ' ' ∉ (jsSplitGet1 cv.mimeType).data
      ++ '/' :: digitChars cv.clockRate := by
    intro hm
    rcases List.mem_append.1 hm with h | h
    · exact hsp h
    · rcases List.mem_cons.1 h with h | h
      · exact absurd h (by decide)
      · exact space_not_mem_digitChars h
  rw [splitOnChar_sep _ _ _ space_not_mem_digitChars,
    splitOnChar_no_sep _ _ hnos]
  rw [show (digitChars cv.payloadType :: [(jsSplitGet1 cv.mimeType).data
      ++ '/' :: digitChars cv.clockRate])[1]?
      = some ((jsSplitGet1 cv.mimeType).data
        ++ '/' :: digitChars cv.clockRate) from rfl]
  simp only [Option.bind_eq_bind, Option.some_bind, Option.pure_def]
  rw [splitOnChar_sep _ _ _ hsl,
    splitOnChar_no_sep _ _ slash_not_mem_digitChars]
  rw [show ((jsSplitGet1 cv.mimeType).data :: [digitChars cv.clockRate])[1]?
      = some (digitChars cv.clockRate) from rfl]
  simp only [Option.bind_eq_bind, Option.some_bind, Option.pure_def]
  rw [parseNatChars_digitChars]
  simp only [Option.bind_eq_bind, Option.some_bind, Option.pure_def]
  have h1 : ssrcLineParse (['a', '=', 'r', 't', 'p', 'm', 'a', 'p', ':']
      ++ (digitChars cv.payloadType
      ++ ' ' :: ((jsSplitGet1 cv.mimeType).data
        ++ '/' :: digitChars cv.clockRate))) = none :=
    ssrcLineParse_none_of_aline _ (by decide)
  have h2 : ssrcLineParse ['a', '=', 'r', 'e', 'c', 'v', 'o', 'n', 'l', 'y']
      = none := ssrcLineParse_none_of_aline _ (by decide)
  rw [List.filterMap_cons, List.filterMap_cons, h1, h2,
    List.filterMap_append, List.filterMap_append, List.filterMap_append,
    List.filterMap_append,
    filterMap_none_of_all _ _ (fun x hx => ssrcnone_of_mem_fmtp hx),
    filterMap_none_of_all _ _ (fun x hx => ssrcnone_of_mem_fb hx),
    filterMap_none_of_all _ _ (fun x hx => ssrcnone_of_mem_ext hx),
    filterMap_ssrcLines_data,
    show List.filterMap ssrcLineParse [[]] = [] from rfl]
  simp [ssrcValues]

theorem parseMediaSection_audio_only (ac : Consumer) (ap : Nat) (ca : Codec)
    (hwf : wfCodec ca) :
    parseMediaSection
      ((sdpHeaderLines ++ sdpAudioLines ac ap ca).map (fun l => l.data)
        ++ [[]]) "m=audio ".data
      = some (ca.payloadType, ca.clockRate, ssrcValues ac) := by
  obtain ⟨hsp, hsl, -, -, -⟩ := hwf
  have hall : ∀ l ∈ (("a=rtpmap:" ++ repNat ca.payloadType ++ " "
        ++ jsSplitGet1 ca.mimeType ++ "/" ++ repNat ca.clockRate ++ "/"
        ++ repNat (channelsJS ca.channels)).data
      :: ['a', '=', 'r', 'e', 'c', 'v', 'o', 'n', 'l', 'y']
      :: ((fmtpLines ca.payloadType ca.parameters).map (fun l => l.data)
        ++ ((ac.rtpParameters.headerExtensions.map extmapLine).map
              (fun l => l.data)
          ++ ((ssrcLines ac.rtpParameters.encodings).map (fun l => l.data)
            ++ [[]])))),
      (!(startsWithChars ['m', '='] l)) = true := by
    intro l hl
    rw [Bool.not_eq_true']
    simp only [List.mem_cons, List.mem_append] at hl
    rcases hl with rfl | rfl | hF | hE | hS | rfl | h
    · exact not_m_of_aline _ _
    · decide
    · exact not_m_of_mem_fmtp hF
    · exact not_m_of_mem_ext hE
    · exact not_m_of_mem_ssrc hS
    · decide
    · exact absurd h (List.not_mem_nil _)
  simp only [sdpHeaderLines, sdpAudioLines, List.map_append, List.map_cons,
    List.map_nil, List.cons_append, List.nil_append, List.append_assoc]
  rw [parseMediaSection]
  rw [findLineFrom_skip _ _ _ (by decide), findLineFrom_skip _ _ _ (by decide),
    findLineFrom_skip _ _ _ (by decide), findLineFrom_skip _ _ _ (by decide),
    findLineFrom_skip _ _ _ (by decide),
    findLineFrom_hit _ _ _ (by exact startsWithChars_of_append _ _)]
  simp only [Option.bind_eq_bind, Option.some_bind, Option.pure_def]
  have e1 : ("m=audio " ++ repNat ap ++ " RTP/AVP "
      ++ repNat ca.payloadType).data
      = ['m', '=', 'a', 'u', 'd', 'i', 'o'] ++ ' ' :: (digitChars ap
          ++ ' ' :: (['R', 'T', 'P', '/', 'A', 'V', 'P']
            ++ ' ' :: digitChars ca.payloadType)) := by
    simp only [String.data_append, repNat_data]
    simp [List.append_assoc, List.cons_append, List.singleton_append]
  rw [e1, splitOnChar_sep _ _ _ (by decide),
    splitOnChar_sep _ _ _ space_not_mem_digitChars,
    splitOnChar_sep _ _ _ (by decide),
    splitOnChar_no_sep _ _ space_not_mem_digitChars]
  rw [show ((['m', '=', 'a', 'u', 'd', 'i', 'o'] : List Char)
      :: digitChars ap :: ['R', 'T', 'P', '/', 'A', 'V', 'P']
      :: [digitChars ca.payloadType])[3]?
      = some (digitChars ca.payloadType) from rfl]
  simp only [Option.bind_eq_bind, Option.some_bind, Option.pure_def]
  rw [parseNatChars_digitChars]
  simp only [Option.bind_eq_bind, Option.some_bind, Option.pure_def]
  rw [takeWhile_of_all _ _ hall]
  rw [List.find?_cons_of_pos _ (by exact startsWithChars_of_append _ _)]
  simp only [Option.bind_eq_bind, Option.some_bind, Option.pure_def]
  have e2 : ("a=rtpmap:" ++ repNat ca.payloadType ++ " "
      ++ jsSplitGet1 ca.mimeType ++ "/" ++ repNat ca.clockRate ++ "/"
      ++ repNat (channelsJS ca.channels)).data
      = ['a', '=', 'r', 't', 'p', 'm', 'a', 'p', ':']
          ++ (digitChars ca.payloadType
          ++ ' ' :: ((jsSplitGet1 ca.mimeType).data
            ++ '/' :: (digitChars ca.clockRate
              ++ '/' :: digitChars (channelsJS ca.channels)))) := by
    simp only [String.data_append, repNat_data]
    simp [List.append_assoc, List.cons_append, List.singleton_append]
  rw [e2]
  rw [show (9 : Nat)
      = (['a', '=', 'r', 't', 'p', 'm', 'a', 'p', ':'] : List Char).length
      from rfl, List.drop_left]
  have hnos : ' ' ∉ (jsSplitGet1 ca.mimeType).data
      ++ '/' :: (digitChars ca.clockRate
        ++ '/' :: digitChars (channelsJS ca.channels)) := by
    intro hm
    rcases List.mem_append.1 hm with h | h
    · exact hsp h
    · rcases List.mem_cons.1 h with h | h
      · exact absurd h (by decide)
      · rcases List.mem_append.1 h with h | h
        · exact space_not_mem_digitChars h
        · rcases List.mem_cons.1 h with h | h
          · exact absurd h (by decide)
          · exact space_not_mem_digitChars h
  rw [splitOnChar_sep _ _ _ space_not_mem_digitChars,
    splitOnChar_no_sep _ _ hnos]
  rw [show (digitChars ca.payloadType :: [(jsSplitGet1 ca.mimeType).data
      ++ '/' :: (digitChars ca.clockRate
        ++ '/' :: digitChars (channelsJS ca.channels))])[1]?
      = some ((jsSplitGet1 ca.mimeType).data
        ++ '/' :: (digitChars ca.clockRate
          ++ '/' :: digitChars (channelsJS ca.channels))) from rfl]
  simp only [Option.bind_eq_bind, Option.some_bind, Option.pure_def]
  rw [splitOnChar_sep _ _ _ hsl,
    splitOnChar_sep _ _ _ slash_not_mem_digitChars,
    splitOnChar_no_sep _ _ slash_not_mem_digitChars]
  rw [show ((jsSplitGet1 ca.mimeType).data :: digitChars ca.clockRate
      :: [digitChars (channelsJS ca.channels)])[1]?
      = some (digitChars ca.clockRate) from rfl]
  simp only [Option.bind_eq_bind, Option.some_bind, Option.pure_def]
  rw [parseNatChars_digitChars]
  simp only [Option.bind_eq_bind, Option.some_bind, Option.pure_def]
  have h1 : ssrcLineParse (['a', '=', 'r', 't', 'p', 'm', 'a', 'p', ':']
      ++ (digitChars ca.payloadType
      ++ ' ' :: ((jsSplitGet1 ca.mimeType).data
        ++ '/' :: (digitChars ca.clockRate
          ++ '/' :: digitChars (channelsJS ca.channels))))) = none :=
    ssrcLineParse_none_of_aline _ (by decide)
  have h2 : ssrcLineParse ['a', '=', 'r', 'e', 'c', 'v', 'o', 'n', 'l', 'y']
      = none := ssrcLineParse_none_of_aline _ (by decide)
  rw [List.filterMap_cons, List.filterMap_cons, h1, h2,
    List.filterMap_append, List.filterMap_append, List.filterMap_append,
    filterMap_none_of_all _ _ (fun x hx => ssrcnone_of_mem_fmtp hx),
    filterMap_none_of_all _ _ (fun x hx => ssrcnone_of_mem_ext hx),
    filterMap_ssrcLines_data,
    show List.filterMap ssrcLineParse [[]] = [] from rfl]
  simp [ssrcValues]

theorem noNL_str_append {a b : String} (ha : '\n' ∉ a.data)
    (hb : '\n' ∉ b.data) : '\n' ∉ (a ++ b).data := by
  rw [String.data_append]
  intro hm
  rcases List.mem_append.1 hm with h | h
  · exact ha h
  · exact hb h

theorem noNL_repNat (n : Nat) : '\n' ∉ (repNat n).data := by
  rw [repNat_data]
  exact nl_not_mem_digitChars

theorem noNL_joinSemicolon (l : List String)
    (h : ∀ x ∈ l, '\n' ∉ x.data) : '\n' ∉ (joinSemicolon l).data := by
  induction l with
  | nil => decide
  | cons x xs ih =>
    cases xs with
    | nil => exact h x (List.mem_cons_self x [])
    | cons y ys =>
      have hj : joinSemicolon (x :: y :: ys)
          = x ++ ";" ++ joinSemicolon (y :: ys) := rfl
      rw [hj]
      exact noNL_str_append
        (noNL_str_append (h x (List.mem_cons_self _ _)) (by decide))
        (ih (fun z hz => h z (List.mem_cons_of_mem _ hz)))

theorem noNL_headerLines : ∀ l ∈ sdpHeaderLines, '\n' ∉ l.data := by
  intro l hl
  simp only [sdpHeaderLines, List.mem_cons] at hl
  rcases hl with rfl | rfl | rfl | rfl | rfl | h
  · decide
  · decide
  · decide
  · decide
  · decide
  · exact absurd h (List.not_mem_nil _)

theorem noNL_fmtpLines {pt : Nat} {ps : List (String × String)}
    (hparams : ∀ kv ∈ ps, '\n' ∉ kv.1.data ∧ '\n' ∉ kv.2.data) :
    ∀ l ∈ fmtpLines pt ps, '\n' ∉ l.data := by
  intro l hl
  rw [mem_fmtpLines hl]
  refine noNL_str_append (noNL_str_append (noNL_str_append (by decide)
    (noNL_repNat _)) (by decide)) (noNL_joinSemicolon _ ?_)
  intro x hx
  rw [List.mem_map] at hx
  obtain ⟨kv, hkv, rfl⟩ := hx
  exact noNL_str_append
    (noNL_str_append (hparams kv hkv).1 (by decide)) (hparams kv hkv).2

theorem noNL_extLines {exts : List HeaderExtension}
    (hext : ∀ e ∈ exts, '\n' ∉ e.uri.data) :
    ∀ l ∈ exts.map extmapLine, '\n' ∉ l.data := by
  intro l hl
  rw [List.mem_map] at hl
  obtain ⟨e, he, rfl⟩ := hl
  exact noNL_str_append (noNL_str_append (noNL_str_append (by decide)
    (noNL_repNat _)) (by decide)) (hext e he)

theorem noNL_ssrcLines {encs : List RtpEncoding} :
    ∀ l ∈ ssrcLines encs, '\n' ∉ l.data := by
  intro l hl
  obtain ⟨s, rfl⟩ := mem_ssrcLines hl
  exact noNL_str_append (noNL_str_append (by decide) (noNL_repNat _))
    (by decide)

theorem noNL_videoLines (vc : Consumer) (vp : Nat) (cv : Codec)
    (hwf : wfCodec cv) (hext : wfExtensions vc) :
    ∀ l ∈ sdpVideoLines vc vp cv, '\n' ∉ l.data := by
  obtain ⟨-, -, hnl, hparams, hfb⟩ := hwf
  intro l hl
  simp only [sdpVideoLines, List.mem_cons, List.mem_append,
    List.not_mem_nil, or_false, or_assoc] at hl
  rcases hl with rfl | rfl | rfl | hF | hB | hE | hS
  · exact noNL_str_append (noNL_str_append (noNL_str_append (by decide)
      (noNL_repNat _)) (by decide)) (noNL_repNat _)
  · exact noNL_str_append (noNL_str_append (noNL_str_append (noNL_str_append
      (noNL_str_append (by decide) (noNL_repNat _)) (by decide)) hnl)
      (by decide)) (noNL_repNat _)
  · decide
  · exact noNL_fmtpLines hparams l hF
  · rw [List.mem_map] at hB
    obtain ⟨fb, hfb', rfl⟩ := hB
    obtain ⟨hty, hpar⟩ := hfb fb hfb'
    refine noNL_str_append (noNL_str_append (noNL_str_append (noNL_str_append
      (by decide) (noNL_repNat _)) (by decide)) hty) ?_
    cases hp : fb.parameter with
    | none => decide
    | some p =>
      by_cases hpe : p = ""
      · simp [hpe]
      · simp only [hpe, if_false, reduceIte]
        exact noNL_str_append (by decide) (hpar p hp)
  · exact noNL_extLines hext l hE
  · exact noNL_ssrcLines l hS

theorem noNL_audioLines (ac : Consumer) (ap : Nat) (ca : Codec)
    (hwf : wfCodec ca) (hext : wfExtensions ac) :
    ∀ l ∈ sdpAudioLines ac ap ca, '\n' ∉ l.data := by
  obtain ⟨-, -, hnl, hparams, -⟩ := hwf
  intro l hl
  simp only [sdpAudioLines, List.mem_cons, List.mem_append,
    List.not_mem_nil, or_false, or_assoc] at hl
  rcases hl with rfl | rfl | rfl | hF | hE | hS
  · exact noNL_str_append (noNL_str_append (noNL_str_append (by decide)
      (noNL_repNat _)) (by decide)) (noNL_repNat _)
  · exact noNL_str_append (noNL_str_append (noNL_str_append (noNL_str_append
      (noNL_str_append (noNL_str_append (noNL_str_append (by decide)
        (noNL_repNat _)) (by decide)) hnl) (by decide)) (noNL_repNat _))
      (by decide)) (noNL_repNat _)
  · decide
  · exact noNL_fmtpLines hparams l hF
  · exact noNL_extLines hext l hE
  · exact noNL_ssrcLines l hS

/-- C8: the descriptor text round-trips.  For both call shapes the
controller uses (video-only and audio-only), parsing the produced SDP
recovers exactly the payload type, the clock rate, and the ssrc values
taken from the consumer's rtpParameters, for every well-formed consumer
parameter set. -/
theorem claim_C8_sdp_roundtrip (vc ac : Consumer) (vp ap : Nat)
    (cv ca : Codec) (hvp : vp ≠ 0) (hap : ap ≠ 0)
    (hcv : vc.rtpParameters.codecs.head? = some cv)
    (hca : ac.rtpParameters.codecs.head? = some ca)
    (hwfv : wfCodec cv) (hwfa : wfCodec ca)
    (hextv : wfExtensions vc) (hexta : wfExtensions ac) :
    (createSdpFile (some vc) vp none 0
        = some (stringOfLines (sdpHeaderLines ++ sdpVideoLines vc vp cv)) ∧
      parseSdp (stringOfLines (sdpHeaderLines ++ sdpVideoLines vc vp cv))
        = (some (cv.payloadType, cv.clockRate, ssrcValues vc), none)) ∧
    (createSdpFile none 0 (some ac) ap
        = some (stringOfLines (sdpHeaderLines ++ sdpAudioLines ac ap ca)) ∧
      parseSdp (stringOfLines (sdpHeaderLines ++ sdpAudioLines ac ap ca))
        = (none, some (ca.payloadType, ca.clockRate, ssrcValues ac))) := by
  have hnlv : ∀ l ∈ sdpHeaderLines ++ sdpVideoLines vc vp cv,
      '\n' ∉ l.data := by
    intro l hl
    rcases List.mem_append.1 hl with h | h
    · exact noNL_headerLines l h
    · exact noNL_videoLines vc vp cv hwfv hextv l h
  have hnla : ∀ l ∈ sdpHeaderLines ++ sdpAudioLines ac ap ca,
      '\n' ∉ l.data := by
    intro l hl
    rcases List.mem_append.1 hl with h | h
    · exact noNL_headerLines l h
    · exact noNL_audioLines ac ap ca hwfa hexta l h
  have hsecv : sdpSectionLines (some vc) vp true
      = some (sdpVideoLines vc vp cv) := by
    simp [sdpSectionLines, hvp, hcv]
  have hseca : sdpSectionLines (some ac) ap false
      = some (sdpAudioLines ac ap ca) := by
    simp [sdpSectionLines, hap, hca]
  refine ⟨⟨?_, ?_⟩, ⟨?_, ?_⟩⟩
  · rw [createSdpFile, hsecv,
      show sdpSectionLines none 0 false = some [] from rfl]
    simp
  · rw [parseSdp, stringOfLines_data, splitLines_flatten _ hnlv,
      parseMediaSection_video_only vc vp cv hwfv,
      parseMediaSection_video_lines_no_audio vc vp cv]
  · rw [createSdpFile, show sdpSectionLines none 0 true = some [] from rfl,
      hseca]
    simp
  · rw [parseSdp, stringOfLines_data, splitLines_flatten _ hnla,
      parseMediaSection_audio_only ac ap ca hwfa,
      parseMediaSection_audio_lines_no_video ac ap ca]

/-- Witness for C8 at concrete video and audio consumers: both descriptor
shapes parse back to the payload type, clock rate and ssrc they were built
from. -/
theorem claim_C8_sdp_roundtrip_witness :
    parseSdp (stringOfLines (sdpHeaderLines
      ++ sdpVideoLines demoVideoConsumer 40000 demoVideoCodec))
      = (some (96, 90000, [123456]), none) ∧
    parseSdp (stringOfLines (sdpHeaderLines
      ++ sdpAudioLines demoAudioConsumer 40101 demoAudioCodec))
      = (none, some (111, 48000, [654321])) := by
  have hwfv : wfCodec demoVideoCodec := by
    refine ⟨by decide, by decide, by decide, by decide, ?_⟩
    intro fb hfb
    simp only [demoVideoCodec, List.mem_cons, List.not_mem_nil, or_false]
      at hfb
    subst hfb
    exact ⟨by decide, fun p hp => by cases hp⟩
  have hwfa : wfCodec demoAudioCodec := by
    refine ⟨by decide, by decide, by decide, by decide, ?_⟩
    intro fb hfb
    simp [demoAudioCodec] at hfb
  have hexv : wfExtensions demoVideoConsumer := by
    intro e he
    simp only [demoVideoConsumer, List.mem_cons, List.not_mem_nil, or_false]
      at he
    subst he
    decide
  have hexa : wfExtensions demoAudioConsumer := by
    intro e he
    simp [demoAudioConsumer] at he
  have h := claim_C8_sdp_roundtrip demoVideoConsumer demoAudioConsumer
    40000 40101 demoVideoCodec demoAudioCodec (by decide) (by decide)
    rfl rfl hwfv hwfa hexv hexa
  exact ⟨h.1.2.trans (by decide), h.2.2.trans (by decide)⟩

theorem alGet_alErase {κ β : Type} [DecidableEq κ] (l : List (κ × β))
    (k : κ) : alGet (alErase l k) k = none := by
  induction l with
  | nil => rfl
  | cons kv rest ih =>
    obtain ⟨k', v⟩ := kv
    rw [alErase]
    by_cases h : k' = k
    · rw [if_pos h]
      exact ih
    · rw [if_neg h, alGet, if_neg h]
      exact ih

theorem alGet_alSet_self {κ β : Type} [DecidableEq κ] (l : List (κ × β))
    (k : κ) (v : β) : alGet (alSet l k v) k = some v := by
  induction l with
  | nil => simp [alSet, alGet]
  | cons kv rest ih =>
    obtain ⟨k', v'⟩ := kv
    rw [alSet]
    by_cases h : k' = k
    · rw [if_pos h, alGet, if_pos rfl]
    · rw [if_neg h, alGet, if_neg h]
      exact ih

theorem alGet_alSet_ne {κ β : Type} [DecidableEq κ] (l : List (κ × β))
    (k k' : κ) (v : β) (h : k ≠ k') :
    alGet (alSet l k v) k' = alGet l k' := by
  induction l with
  | nil => simp [alSet, alGet, h]
  | cons kv rest ih =>
    obtain ⟨ka, va⟩ := kv
    rw [alSet]
    by_cases hk : ka = k
    · rw [if_pos hk, alGet, if_neg h, alGet, if_neg (hk ▸ h)]
    · rw [if_neg hk, alGet, alGet]
      by_cases hk' : ka = k'
      · rw [if_pos hk', if_pos hk']
      · rw [if_neg hk', if_neg hk']
        exact ih

theorem closeAll_preserves (s : ManagerState) (l : List Nat) :
    (closeAllTransports s l).1.usedPorts = s.usedPorts ∧
    (closeAllTransports s l).1.activeRooms = s.activeRooms ∧
    (closeAllTransports s l).1.dupCounters = s.dupCounters ∧
    (closeAllTransports s l).1.rtpCounters = s.rtpCounters := by
  induction l generalizing s with
  | nil => exact ⟨rfl, rfl, rfl, rfl⟩
  | cons t rest ih =>
    rw [closeAllTransports]
    split
    · exact ih s
    · exact ih (closeTransportState s t)

theorem closeAll_actions (s : ManagerState) (l : List Nat) :
    ∀ a ∈ (closeAllTransports s l).2, ∃ t, a = Action.closeTransport t := by
  induction l generalizing s with
  | nil => intro a ha; exact absurd ha (List.not_mem_nil _)
  | cons t rest ih =>
    rw [closeAllTransports]
    split
    · exact ih s
    · intro a ha
      rcases List.mem_cons.1 ha with rfl | ha'
      · exact ⟨t, rfl⟩
      · exact ih _ a ha'

theorem transportIsClosed_closeState {s : ManagerState} {t : Nat} (u : Nat)
    (h : transportIsClosed s t = true) :
    transportIsClosed (closeTransportState s u) t = true := by
  by_cases he : u = t
  · subst he
    simp [transportIsClosed, closeTransportState, alGet_alSet_self]
  · rw [transportIsClosed, closeTransportState]
    show (alGet (alSet s.transportClosed u true) t).getD true = true
    rw [alGet_alSet_ne _ _ _ _ he]
    exact h

theorem closeAll_mono {s : ManagerState} {t : Nat} (l : List Nat)
    (h : transportIsClosed s t = true) :
    transportIsClosed (closeAllTransports s l).1 t = true := by
  induction l generalizing s with
  | nil => exact h
  | cons u rest ih =>
    rw [closeAllTransports]
    split
    · exact ih h
    · exact ih (transportIsClosed_closeState u h)

theorem closeAll_closes (s : ManagerState) (l : List Nat) :
    ∀ t ∈ l, transportIsClosed (closeAllTransports s l).1 t = true := by
  induction l generalizing s with
  | nil => intro t ht; exact absurd ht (List.not_mem_nil _)
  | cons u rest ih =>
    intro t ht
    rw [closeAllTransports]
    split
    case isTrue hcl =>
      rcases List.mem_cons.1 ht with rfl | ht'
      · exact closeAll_mono rest hcl
      · exact ih s t ht'
    case isFalse hcl =>
      rcases List.mem_cons.1 ht with rfl | ht'
      · exact closeAll_mono rest
          (by simp [transportIsClosed, closeTransportState, alGet_alSet_self])
      · exact ih _ t ht'

theorem stop_usedPorts (s : ManagerState) (r : String) :
    (stopRoomHlsStream s r).1.usedPorts = s.usedPorts := by
  rw [stopRoomHlsStream]
  cases h : alGet s.activeRooms r with
  | none => rfl
  | some entry => exact (closeAll_preserves s entry.transportIds).1

theorem stop_room_gone (s : ManagerState) (r : String) :
    alGet (stopRoomHlsStream s r).1.activeRooms r = none := by
  rw [stopRoomHlsStream]
  cases h : alGet s.activeRooms r with
  | none => exact h
  | some entry => exact alGet_alErase _ _

theorem stop_actions (s : ManagerState) (r : String) :
    ∀ a ∈ (stopRoomHlsStream s r).2,
      (∃ r', a = Action.killProcess r') ∨
      (∃ t, a = Action.closeTransport t) := by
  rw [stopRoomHlsStream]
  cases h : alGet s.activeRooms r with
  | none => intro a ha; exact absurd ha (List.not_mem_nil _)
  | some entry =>
    intro a ha
    rcases List.mem_append.1 ha with ha | ha
    · by_cases hf : entry.hasFfmpeg
      · rw [if_pos hf] at ha
        exact Or.inl ⟨r, List.mem_singleton.1 ha⟩
      · rw [if_neg hf] at ha
        exact absurd ha (List.not_mem_nil _)
    · exact Or.inr (closeAll_actions s entry.transportIds a ha)

theorem stop_closes (s : ManagerState) (r : String) (entry : RoomEntry)
    (h : alGet s.activeRooms r = some entry) :
    ∀ t ∈ entry.transportIds,
      transportIsClosed (stopRoomHlsStream s r).1 t = true := by
  rw [stopRoomHlsStream, h]
  intro t ht
  exact closeAll_closes s entry.transportIds t ht

/-- C6: stopping is idempotent.  Stopping a room with no active session
returns without error and changes nothing; stopping twice in a row leaves
the once-stopped state unchanged and performs no action the second time
(so nothing is released twice); and a stop never emits a port release at
all. -/
theorem claim_C6_stop_idempotent (s : ManagerState) (roomId : String) :
    (alGet s.activeRooms roomId = none →
      stopRoomHlsStream s roomId = (s, [])) ∧
    stopRoomHlsStream (stopRoomHlsStream s roomId).1 roomId
      = ((stopRoomHlsStream s roomId).1, []) ∧
    (∀ a ∈ (stopRoomHlsStream s roomId).2, ∀ p,
      a ≠ Action.releasePort p) := by
  have hno : ∀ s' : ManagerState, alGet s'.activeRooms roomId = none →
      stopRoomHlsStream s' roomId = (s', []) := by
    intro s' h
    rw [stopRoomHlsStream, h]
  refine ⟨hno s, hno _ (stop_room_gone s roomId), ?_⟩
  intro a ha p
  rcases stop_actions s roomId a ha with ⟨r', rfl⟩ | ⟨t, rfl⟩ <;> simp

/-- Witness for C6 at a concrete state: a second stop of room `r` is a
no-op on the once-stopped state, and stopping a room with no session
returns the state unchanged with no error. -/
theorem claim_C6_stop_idempotent_witness :
    stopRoomHlsStream (stopRoomHlsStream demoState1 "r").1 "r"
      = ((stopRoomHlsStream demoState1 "r").1, []) ∧
    stopRoomHlsStream demoState1 "nosuch" = (demoState1, []) := by
  have h1 := claim_C6_stop_idempotent demoState1 "r"
  have h2 := claim_C6_stop_idempotent demoState1 "nosuch"
  exact ⟨h1.2.1, h2.1 (by decide)⟩

/-- C4: a start request with an empty producer list is rejected, and a
start request whose resolved producers are all closed or paused is
rejected; in neither case does the call fall back to producing a
stream. -/
theorem claim_C4_reject_inactive (env : RouterEnv) (hlsOut : String)
    (router : List Producer) (s : ManagerState) (roomId : String)
    (refs : List ProducerRef) :
    (refs = [] → updateRoomStream env hlsOut router s roomId refs
      = (Except.error HlsError.noProducers, s, [])) ∧
    ((∀ p ∈ resolveProducers router refs,
        p.closed = true ∨ p.paused = true) →
      ∃ e, (updateRoomStream env hlsOut router s roomId refs).1
        = Except.error e) := by
  constructor
  · intro h
    subst h
    rfl
  · intro hall
    by_cases he : refs = []
    · subst he
      exact ⟨HlsError.noProducers, rfl⟩
    · have hfil : (resolveProducers router refs).filter
          (fun p => !p.closed && !p.paused) = [] := by
        rw [List.filter_eq_nil_iff]
        intro p hp
        rcases hall p hp with h | h <;> simp [h]
      refine ⟨HlsError.noActiveProducers, ?_⟩
      simp only [updateRoomStream]
      rw [if_neg (by simp [List.isEmpty_iff, he]), hfil]
      rfl

/-- Witness for C4 at concrete inputs: the empty list and a single paused
audio producer are both rejected. -/
theorem claim_C4_reject_inactive_witness :
    updateRoomStream allOkEnv "/hls" [] demoState1 "r" []
      = (Except.error HlsError.noProducers, demoState1, []) ∧
    ∃ e, (updateRoomStream allOkEnv "/hls" [] demoState1 "r"
      [ProducerRef.full ⟨"a1", MediaKind.audio, false, true⟩]).1
      = Except.error e := by
  have h1 := claim_C4_reject_inactive allOkEnv "/hls" [] demoState1 "r" []
  have h2 := claim_C4_reject_inactive allOkEnv "/hls" [] demoState1 "r"
    [ProducerRef.full ⟨"a1", MediaKind.audio, false, true⟩]
  exact ⟨h1.1 rfl, h2.2 (by decide)⟩

theorem createMulti_no_video (env : RouterEnv) (hlsOut : String)
    (s : ManagerState) (roomId : String) (producers : List Producer)
    (hv : videoProducersOf producers = []) :
    createMultiParticipantStream env hlsOut s roomId producers
      = (Except.error HlsError.noVideoProducers,
         { (stopRoomHlsStream s roomId).1 with
             dupCounters :=
               alSet (stopRoomHlsStream s roomId).1.dupCounters roomId 0,
             rtpCounters :=
               alSet (stopRoomHlsStream s roomId).1.rtpCounters roomId 0 },
         (stopRoomHlsStream s roomId).2) := by
  rw [createMultiParticipantStream, hv]
  rfl

/-- C10: a start request whose resolved active producers are all audio
(at least one active producer, none of them video) always fails: the call
returns an error, the used-port set is unchanged, and the run neither
reserves a port nor creates a transport for the new session. -/
theorem claim_C10_audio_only_rejected (env : RouterEnv) (hlsOut : String)
    (router : List Producer) (s : ManagerState) (roomId : String)
    (refs : List ProducerRef)
    (hne : (resolveProducers router refs).filter
      (fun p => !p.closed && !p.paused) ≠ [])
    (hall : ∀ p ∈ (resolveProducers router refs).filter
      (fun p => !p.closed && !p.paused), p.kind = MediaKind.audio) :
    (updateRoomStream env hlsOut router s roomId refs).1
      = Except.error HlsError.noVideoProducers ∧
    (updateRoomStream env hlsOut router s roomId refs).2.1.usedPorts
      = s.usedPorts ∧
    (∀ a ∈ (updateRoomStream env hlsOut router s roomId refs).2.2,
      (∀ p, a ≠ Action.reservePort p) ∧
      (∀ t, a ≠ Action.createTransport t)) := by
  have hrefs : refs ≠ [] := by
    rintro rfl
    exact hne rfl
  have hvid : videoProducersOf ((resolveProducers router refs).filter
      (fun p => !p.closed && !p.paused)) = [] := by
    rw [videoProducersOf, List.filter_eq_nil_iff]
    intro p hp
    simp [hall p hp]
  have hrun : updateRoomStream env hlsOut router s roomId refs
      = createMultiParticipantStream env hlsOut s roomId
          ((resolveProducers router refs).filter
            (fun p => !p.closed && !p.paused)) := by
    simp only [updateRoomStream]
    rw [if_neg (by simp [List.isEmpty_iff, hrefs]),
      if_neg (by simp [List.isEmpty_iff, hne])]
  rw [hrun, createMulti_no_video env hlsOut s roomId _ hvid]
  refine ⟨rfl, stop_usedPorts s roomId, ?_⟩
  intro a ha
  rcases stop_actions s roomId a ha with ⟨r', rfl⟩ | ⟨t, rfl⟩ <;>
    exact ⟨fun p => by simp, fun t' => by simp⟩

/-- Witness for C10: one live audio producer and one closed video
producer; the start is rejected, no port is reserved and no transport is
created. -/
theorem claim_C10_audio_only_rejected_witness :
    (updateRoomStream allOkEnv "/hls" [] demoState1 "r"
      [ProducerRef.full ⟨"a1", MediaKind.audio, false, false⟩,
       ProducerRef.full ⟨"v9", MediaKind.video, true, false⟩]).1
      = Except.error HlsError.noVideoProducers ∧
    (updateRoomStream allOkEnv "/hls" [] demoState1 "r"
      [ProducerRef.full ⟨"a1", MediaKind.audio, false, false⟩,
       ProducerRef.full ⟨"v9", MediaKind.video, true, false⟩]).2.1.usedPorts
      = demoState1.usedPorts := by
  have h := claim_C10_audio_only_rejected allOkEnv "/hls" [] demoState1 "r"
    [ProducerRef.full ⟨"a1", MediaKind.audio, false, false⟩,
     ProducerRef.full ⟨"v9", MediaKind.video, true, false⟩]
    (by decide) (by decide)
  exact ⟨h.1, h.2.1⟩

/-- C3, evaluated at the failing input: two live video tracks, the
consume step of the second track fails.  The call errors out, but the
port reserved for the first track (40000) stays leased, both transports
created in the call (ids 0 and 1) stay open, and the trace releases only
the second track's port and closes nothing — contradicting the claim
that every transport created in the call is closed and every reserved
port released before the error propagates. -/
theorem claim_C3_wiring_failure_leaks :
    (updateRoomStream consumeFailEnv "/hls" [] emptyState "room1"
      twoVideoRefs).1 = Except.error (HlsError.consumeFailed 1) ∧
    (updateRoomStream consumeFailEnv "/hls" [] emptyState "room1"
      twoVideoRefs).2.1.usedPorts = {40000} ∧
    transportIsClosed (updateRoomStream consumeFailEnv "/hls" [] emptyState
      "room1" twoVideoRefs).2.1 0 = false ∧
    transportIsClosed (updateRoomStream consumeFailEnv "/hls" [] emptyState
      "room1" twoVideoRefs).2.1 1 = false ∧
    Action.releasePort 40000 ∉ (updateRoomStream consumeFailEnv "/hls" []
      emptyState "room1" twoVideoRefs).2.2 ∧
    Action.closeTransport 0 ∉ (updateRoomStream consumeFailEnv "/hls" []
      emptyState "room1" twoVideoRefs).2.2 ∧
    Action.closeTransport 1 ∉ (updateRoomStream consumeFailEnv "/hls" []
      emptyState "room1" twoVideoRefs).2.2 := by
  refine ⟨rfl, by decide, by decide, by decide, by decide, by decide,
    by decide⟩

/-- C1, refuted at a concrete input: room `r` has an active session
holding port 40000; a second start for the same room reserves a new port
(40001) while 40000 is still leased — no release of the old session's
port happens before the first reservation of the new call. -/
theorem claim_C1_counterexample :
    alGet demoState1.activeRooms "r" = some ⟨true, 0, [0], "/hls/r"⟩ ∧
    40000 ∈ demoState1.usedPorts ∧
    ¬ stoppedBeforeReserve [40000]
        (updateRoomStream allOkEnv "/hls" [] demoState1 "r"
          [ProducerRef.full demoVideoProducer]).2.2 := by
  refine ⟨by decide, by decide, ?_⟩
  simp only [stoppedBeforeReserve]
  decide

/-- C7: every relay consumer is created paused (both in the video wiring
loop and in the audio block); the resume callback runs only after the
fixed 1000 ms warm-up delay; when the process has already exited it
performs nothing; and when the process is still running it resumes every
video consumer with a keyframe request each, then resumes the audio
consumer. -/
theorem claim_C7_paused_until_warmup (env : RouterEnv) (s : ManagerState)
    (pairs : List (Producer × Nat)) (idx : Nat) :
    (∀ res s' tr, wireVideoLoop env s pairs idx = (Except.ok res, s', tr) →
      ∀ c ∈ res.2.1, c.paused = true) ∧
    (∀ prod port tid c s' tr,
      wireAudio env s (some prod) port idx
        = (Except.ok (some (tid, c)), s', tr) → c.paused = true) ∧
    resumeWarmupDelayMs = 1000 ∧
    (∀ ec vcs ac, ec ≠ none → resumeConsumersCallback ec vcs ac = []) ∧
    (∀ vcs ac, resumeConsumersCallback none vcs ac
      = (vcs.map (fun c => [Action.resumeConsumer c.producerId,
          Action.requestKeyFrame c.producerId])).flatten
        ++ (match ac with
            | some a => [Action.resumeConsumer a.producerId]
            | none => [])) := by
  refine ⟨?_, ?_, rfl, ?_, fun vcs ac => rfl⟩
  · induction pairs generalizing s idx with
    | nil =>
      intro res s' tr h c hc
      simp only [wireVideoLoop, Prod.mk.injEq, Except.ok.injEq] at h
      obtain ⟨h1, -, -⟩ := h
      subst h1
      simp at hc
    | cons pp rest ih =>
      obtain ⟨prod, port⟩ := pp
      intro res s' tr h c hc
      simp only [wireVideoLoop] at h
      by_cases h1 : env.createTransportOk idx = true
      · rw [if_pos h1] at h
        by_cases h2 : env.connectOk idx = true
        · rw [if_pos h2] at h
          by_cases h3 : env.consumeOk idx = true
          · rw [if_pos h3] at h
            split at h
            next res' heq =>
              simp only [Prod.mk.injEq, Except.ok.injEq] at h
              obtain ⟨hres, -, -⟩ := h
              subst hres
              rcases List.mem_cons.1 hc with rfl | hc'
              · rfl
              · exact ih _ (idx + 1) res' _ _ (by rw [← heq]) c hc'
            next e heq => simp at h
          · rw [if_neg h3] at h
            simp at h
        · rw [if_neg h2] at h
          simp at h
      · rw [if_neg h1] at h
        simp at h
  · intro prod port tid c s' tr h
    simp only [wireAudio] at h
    by_cases h1 : env.createTransportOk idx = true
    · rw [if_pos h1] at h
      by_cases h2 : env.connectOk idx = true
      · rw [if_pos h2] at h
        by_cases h3 : env.consumeOk idx = true
        · rw [if_pos h3] at h
          simp only [Prod.mk.injEq, Except.ok.injEq,
            Option.some.injEq] at h
          obtain ⟨h4, -, -⟩ := h
          obtain ⟨-, h5⟩ := h4
          rw [← h5]
        · rw [if_neg h3] at h
          simp at h
      · rw [if_neg h2] at h
        simp at h
    · rw [if_neg h1] at h
      simp at h
  · intro ec vcs ac hec
    rw [resumeConsumersCallback.eq_def, if_neg hec]

/-- Witness for C7 at one live video track: the wiring result's single
consumer is paused, and the callback does nothing for a process that
exited with code 0. -/
theorem claim_C7_paused_until_warmup_witness :
    (∀ c ∈ [(⟨"vp1", MediaKind.video, true, ⟨[], [], []⟩⟩ : Consumer)],
      c.paused = true) ∧
    resumeConsumersCallback (some 0)
      [⟨"vp1", MediaKind.video, true, ⟨[], [], []⟩⟩] none = [] := by
  have h := claim_C7_paused_until_warmup allOkEnv emptyState
    [(demoVideoProducer, 40000)] 0
  refine ⟨?_, h.2.2.2.1 (some 0) _ none (by simp)⟩
  intro c hc
  exact h.1 ([0], [⟨"vp1", MediaKind.video, true, ⟨[], [], []⟩⟩],
      [("vp1", 40000)])
    ⟨[], ∅, [(0, false)], 1, 0, [], []⟩
    [Action.createTransport 0, Action.connectTransport 0 40000,
     Action.createConsumer 0 "vp1" true] rfl c hc

theorem reservePortsLoop_spec (count mn mx : Nat) (s : ManagerState) :
    (∀ p, Action.reservePort p ∈ (reservePortsLoop count mn mx s).2.2 →
      p ∉ s.usedPorts) ∧
    s.usedPorts ⊆ (reservePortsLoop count mn mx s).2.1.usedPorts := by
  induction count generalizing s with
  | zero =>
    exact ⟨fun p hp => absurd hp (List.not_mem_nil _), subset_rfl⟩
  | succ k ih =>
    rw [reservePortsLoop]
    cases hr : reservePort mn mx s.usedPorts with
    | none =>
      simp only [hr]
      exact ⟨fun p hp => absurd hp (List.not_mem_nil _), subset_rfl⟩
    | some pu =>
      obtain ⟨p0, used1⟩ := pu
      obtain ⟨hp0, hu⟩ := reservePort_spec hr
      subst hu
      simp only [hr]
      have hcommon : (∀ p, Action.reservePort p
          ∈ Action.reservePort p0 :: (reservePortsLoop k mn mx
            { s with usedPorts := insert p0 s.usedPorts }).2.2 →
          p ∉ s.usedPorts) ∧
          s.usedPorts ⊆ (reservePortsLoop k mn mx
            { s with usedPorts := insert p0 s.usedPorts }).2.1.usedPorts := by
        constructor
        · intro p hp
          rcases List.mem_cons.1 hp with heq | hp'
          · have hpe := Action.reservePort.inj heq
            subst hpe
            exact hp0
          · intro hmem
            exact (ih _).1 p hp' (Finset.mem_insert_of_mem hmem)
        · intro q hq
          exact (ih _).2 (Finset.mem_insert_of_mem hq)
      cases hro : (reservePortsLoop k mn mx
          { s with usedPorts := insert p0 s.usedPorts }).1 with
      | some ps => simp only [hro]; exact hcommon
      | none => simp only [hro]; exact hcommon

theorem reserveAudioPort_spec (s : ManagerState) (hasAudio : Bool) :
    (∀ p, Action.reservePort p ∈ (reserveAudioPort s hasAudio).2.2 →
      p ∉ s.usedPorts) ∧
    s.usedPorts ⊆ (reserveAudioPort s hasAudio).2.1.usedPorts := by
  rw [reserveAudioPort]
  by_cases h : hasAudio = true
  · rw [if_pos h]
    cases hr : reservePort 40101 40200 s.usedPorts with
    | none =>
      simp only [hr]
      exact ⟨fun p hp => absurd hp (List.not_mem_nil _), subset_rfl⟩
    | some pu =>
      obtain ⟨p0, used1⟩ := pu
      obtain ⟨hp0, hu⟩ := reservePort_spec hr
      subst hu
      simp only [hr]
      constructor
      · intro p hp
        have hpe := Action.reservePort.inj (List.mem_singleton.1 hp)
        subst hpe
        exact hp0
      · intro q hq
        exact Finset.mem_insert_of_mem hq
  · rw [if_neg h]
    exact ⟨fun p hp => absurd hp (List.not_mem_nil _), subset_rfl⟩

theorem wireVideoLoop_no_reserve (env : RouterEnv) (s : ManagerState)
    (pairs : List (Producer × Nat)) (idx : Nat) :
    ∀ p, Action.reservePort p ∉ (wireVideoLoop env s pairs idx).2.2 := by
  induction pairs generalizing s idx with
  | nil => intro p hp; exact absurd hp (List.not_mem_nil _)
  | cons pp rest ih =>
    obtain ⟨prod, port⟩ := pp
    intro p hp
    simp only [wireVideoLoop] at hp
    by_cases h1 : env.createTransportOk idx = true
    · rw [if_pos h1] at hp
      by_cases h2 : env.connectOk idx = true
      · rw [if_pos h2] at hp
        by_cases h3 : env.consumeOk idx = true
        · rw [if_pos h3] at hp
          split at hp <;>
          · simp only [List.mem_cons] at hp
            rcases hp with h | h | h | h
            · exact Action.noConfusion h
            · exact Action.noConfusion h
            · exact Action.noConfusion h
            · exact ih _ (idx + 1) p h
        · rw [if_neg h3] at hp
          simp at hp
      · rw [if_neg h2] at hp
        simp at hp
    · rw [if_neg h1] at hp
      simp at hp

theorem wireAudio_no_reserve (env : RouterEnv) (s : ManagerState)
    (audioProducer : Option Producer) (port : Nat) (idx : Nat) :
    ∀ p, Action.reservePort p
      ∉ (wireAudio env s audioProducer port idx).2.2 := by
  intro p hp
  cases audioProducer with
  | none => exact absurd hp (List.not_mem_nil _)
  | some prod =>
    simp only [wireAudio] at hp
    by_cases h1 : env.createTransportOk idx = true
    · rw [if_pos h1] at hp
      by_cases h2 : env.connectOk idx = true
      · rw [if_pos h2] at hp
        by_cases h3 : env.consumeOk idx = true
        · rw [if_pos h3] at hp
          simp at hp
        · rw [if_neg h3] at hp
          simp at hp
      · rw [if_neg h2] at hp
        simp at hp
    · rw [if_neg h1] at hp
      simp at hp

/-- C1 (amended): when a room has an active session and a start request
arrives, the stop of the existing session is synchronously awaited before
any wiring — the run's trace begins with the stop's actions, and after
the stop the room is deregistered and every transport of the old session
is closed — but the stop releases no port: the old session's ports stay
in the used set (they are only released later by the dead process's close
handler), and the new call's reservations therefore return only ports
that were not leased before the call, never a port of the old session. -/
theorem claim_C1_stop_before_wire_amended (env : RouterEnv)
    (hlsOut : String) (s : ManagerState) (roomId : String)
    (producers : List Producer) (entry : RoomEntry)
    (hentry : alGet s.activeRooms roomId = some entry) :
    (∃ rest, (createMultiParticipantStream env hlsOut s roomId
        producers).2.2 = (stopRoomHlsStream s roomId).2 ++ rest) ∧
    alGet (stopRoomHlsStream s roomId).1.activeRooms roomId = none ∧
    (stopRoomHlsStream s roomId).1.usedPorts = s.usedPorts ∧
    (∀ a ∈ (stopRoomHlsStream s roomId).2, ∀ p,
      a ≠ Action.releasePort p) ∧
    (∀ t ∈ entry.transportIds,
      transportIsClosed (stopRoomHlsStream s roomId).1 t = true) ∧
    (∀ p, Action.reservePort p
        ∈ (createMultiParticipantStream env hlsOut s roomId producers).2.2 →
      p ∉ s.usedPorts) := by
  have hstopres : ∀ a ∈ (stopRoomHlsStream s roomId).2, ∀ q,
      a ≠ Action.reservePort q := by
    intro a ha q
    rcases stop_actions s roomId a ha with ⟨r', rfl⟩ | ⟨t, rfl⟩ <;> simp
  have hrv : ∀ (cnt : Nat) (st : ManagerState),
      st.usedPorts = s.usedPorts → ∀ p,
      Action.reservePort p ∈ (reservePortsLoop cnt 40000 40100 st).2.2 →
      p ∉ s.usedPorts := by
    intro cnt st hst p hp hmem
    exact (reservePortsLoop_spec cnt 40000 40100 st).1 p hp (hst ▸ hmem)
  have hra : ∀ (b : Bool) (st : ManagerState),
      s.usedPorts ⊆ st.usedPorts → ∀ p,
      Action.reservePort p ∈ (reserveAudioPort st b).2.2 →
      p ∉ s.usedPorts := by
    intro b st hst p hp hmem
    exact (reserveAudioPort_spec st b).1 p hp (hst hmem)
  refine ⟨?_, stop_room_gone s roomId, stop_usedPorts s roomId, ?_,
    stop_closes s roomId entry hentry, ?_⟩
  · simp only [createMultiParticipantStream]
    split
    · exact ⟨[], (List.append_nil _).symm⟩
    · split
      · exact ⟨_, rfl⟩
      · split
        · exact ⟨_, rfl⟩
        · split
          · exact ⟨_, rfl⟩
          · split
            · exact ⟨_, rfl⟩
            · exact ⟨_, rfl⟩
  · intro a ha p
    rcases stop_actions s roomId a ha with ⟨r', rfl⟩ | ⟨t, rfl⟩ <;> simp
  · intro p hp
    have hs2 : ({ (stopRoomHlsStream s roomId).1 with
        dupCounters :=
          alSet (stopRoomHlsStream s roomId).1.dupCounters roomId 0,
        rtpCounters :=
          alSet (stopRoomHlsStream s roomId).1.rtpCounters roomId 0 }
        : ManagerState).usedPorts = s.usedPorts := stop_usedPorts s roomId
    simp only [createMultiParticipantStream] at hp
    split at hp
    · exact absurd rfl (hstopres _ hp p)
    · split at hp
      · rcases List.mem_append.1 hp with h | h
        · exact absurd rfl (hstopres _ h p)
        · exact hrv _ _ hs2 p h
      · split at hp
        · rcases List.mem_append.1 hp with h | h
          · exact absurd rfl (hstopres _ h p)
          · rcases List.mem_append.1 h with h' | h'
            · exact hrv _ _ hs2 p h'
            · exact hra _ _ (hs2 ▸ (reservePortsLoop_spec _ 40000 40100
                _).2) p h'
        · split at hp
          · rcases List.mem_append.1 hp with h | h
            · exact absurd rfl (hstopres _ h p)
            · rcases List.mem_append.1 h with h' | h'
              · exact hrv _ _ hs2 p h'
              · rcases List.mem_append.1 h' with h'' | h''
                · exact hra _ _ (hs2 ▸ (reservePortsLoop_spec _ 40000
                    40100 _).2) p h''
                · exact absurd h'' (wireVideoLoop_no_reserve _ _ _ _ p)
          · split at hp
            · rcases List.mem_append.1 hp with h | h
              · exact absurd rfl (hstopres _ h p)
              · rcases List.mem_append.1 h with h' | h'
                · exact hrv _ _ hs2 p h'
                · rcases List.mem_append.1 h' with h'' | h''
                  · exact hra _ _ (hs2 ▸ (reservePortsLoop_spec _ 40000
                      40100 _).2) p h''
                  · rcases List.mem_append.1 h'' with h3 | h3
                    · exact absurd h3
                        (wireVideoLoop_no_reserve _ _ _ _ p)
                    · exact absurd h3 (wireAudio_no_reserve _ _ _ _ _ p)
            · rcases List.mem_append.1 hp with h | h
              · exact absurd rfl (hstopres _ h p)
              · rcases List.mem_append.1 h with h' | h'
                · exact hrv _ _ hs2 p h'
                · rcases List.mem_append.1 h' with h'' | h''
                  · exact hra _ _ (hs2 ▸ (reservePortsLoop_spec _ 40000
                      40100 _).2) p h''
                  · rcases List.mem_append.1 h'' with h3 | h3
                    · exact absurd h3
                        (wireVideoLoop_no_reserve _ _ _ _ p)
                    · rcases List.mem_append.1 h3 with h4 | h4
                      · exact absurd h4
                          (wireAudio_no_reserve _ _ _ _ _ p)
                      · have := List.mem_singleton.1 h4
                        exact Action.noConfusion this

/-- Witness for C1 (amended) at the concrete replaced-session state: the
new call's trace extends the stop trace and the old port 40000 is not
reserved again. -/
theorem claim_C1_stop_before_wire_amended_witness :
    alGet (stopRoomHlsStream demoState1 "r").1.activeRooms "r" = none ∧
    (stopRoomHlsStream demoState1 "r").1.usedPorts
      = demoState1.usedPorts ∧
    (Action.reservePort 40000
        ∈ (createMultiParticipantStream allOkEnv "/hls" demoState1 "r"
          [demoVideoProducer]).2.2 →
      40000 ∉ demoState1.usedPorts) := by
  have h := claim_C1_stop_before_wire_amended allOkEnv "/hls" demoState1
    "r" [demoVideoProducer] ⟨true, 0, [0], "/hls/r"⟩ (by decide)
  exact ⟨h.2.1, h.2.2.1, h.2.2.2.2.2 40000⟩

/-- Witness for C9 at two video tracks and no audio track: the inputs are
the two descriptor files then `anullsrc`, and the side-by-side filter graph
is chosen. -/
theorem claim_C9_silent_audio_fallback_witness :
    inputsOf (buildFfmpegArgs "warning"
      ((List.range 2).map (videoSdpPath "/out/room1")) none
      (filterComplexFor (min 2 4)) "/out/room1")
      = (List.range 2).map (videoSdpPath "/out/room1") ++ [anullsrcInput] ∧
    filterComplexFor (min 2 4)
      = "[0:v]scale=320:240,fps=30[v0];[1:v]scale=320:240,fps=30[v1];[v0][v1]hstack=inputs=2[v]" := by
  have h := claim_C9_silent_audio_fallback "warning" "/out/room1" 2
    ((List.range 2).map (videoSdpPath "/out/room1"))
    (buildFfmpegArgs "warning" ((List.range 2).map (videoSdpPath "/out/room1"))
      none (filterComplexFor (min 2 4)) "/out/room1")
    (by decide) (by decide) rfl rfl
  exact ⟨h.1, h.2.2.2 rfl⟩

end HlsModel
